import Mathlib

/-!
# Attendance controllers of the CMS backend

A shallow embedding of `src/controllers/attendancecontrollers.js`.

* The relational store is a pair of row lists (`users`, `attendance`); every SQL statement of
  the controllers is a function on those lists.
* A JavaScript number is the exact rational value of a binary64 double; every arithmetic
  operation rounds its exact result to the nearest double (ties to even).  The exponent range is
  left unbounded, so overflow to `Infinity` and subnormal numbers are outside the model.
* A timestamp is a number of milliseconds since the epoch, a calendar date is a number of days
  since the epoch (the `YYYY-MM-DD` prefix of `toISOString()` is the UTC day).
-/

namespace CMS

/-! ## JavaScript numbers -/

/-- Nearest integer to `x`, a tie going to the even neighbour. -/
def roundHalfEven (x : ℚ) : ℤ :=
  let f := ⌊x⌋
  let r := x - f
  if r < 1 / 2 then f else if 1 / 2 < r then f + 1 else if f % 2 = 0 then f else f + 1

/-- Number of binary digits of `n`, found by halving at most `fuel` times. -/
def bitLen : Nat → Nat → Nat
  | 0, _ => 0
  | fuel + 1, n => if n = 0 then 0 else bitLen fuel (n / 2) + 1

/-- Binary exponent of a non-zero rational: the `e` with `2 ^ e ≤ |x| < 2 ^ (e + 1)`. -/
def binExp (x : ℚ) : ℤ :=
  let n := x.num.natAbs
  let d := x.den
  let e0 : ℤ := (bitLen n n : ℤ) - (bitLen d d : ℤ)
  if (2 : ℚ) ^ e0 ≤ |x| then e0 else e0 - 1

/-- Value of the binary64 double nearest to `x` (53-bit significand, ties to even). -/
def toDouble (x : ℚ) : ℚ :=
  if x = 0 then 0 else
    let e := binExp x
    (roundHalfEven (x / 2 ^ (e - 52)) : ℚ) * 2 ^ (e - 52)

/-- JavaScript `a + b` on numbers. -/
def jsAdd (a b : ℚ) : ℚ := toDouble (a + b)

/-- JavaScript `a - b` on numbers. -/
def jsSub (a b : ℚ) : ℚ := toDouble (a - b)

/-- JavaScript `a * b` on numbers. -/
def jsMul (a b : ℚ) : ℚ := toDouble (a * b)

/-- JavaScript `a / b` on numbers, for a non-zero divisor. -/
def jsDiv (a b : ℚ) : ℚ := toDouble (a / b)

/-- JavaScript `Math.round`: the nearest integer, a tie going up. -/
def mathRound (x : ℚ) : ℤ := ⌊x + 1 / 2⌋

/-! ## Data model -/

/-- A value of the store's decimal type: `unscaled / 10 ^ scale`, printed with `scale` digits
after the decimal point. -/
structure PgNumeric where
  unscaled : Int
  scale : Nat
deriving DecidableEq, Repr

/-- A row of `users` (the password column plays no part in the attendance controllers). -/
structure User where
  id : Nat
  name : String
  email : String
  role : String
deriving DecidableEq, Repr

/-- A row of `attendance`. -/
structure Attendance where
  id : Nat
  user_id : Nat
  work_date : Int
  clock_in_time : Int
  clock_out_time : Option Int
  notes : Option String
  status : String
  total_hours : Option PgNumeric
  updated_at : Int
deriving DecidableEq, Repr

/-- The relational store: both tables and the next identifier the store will assign. -/
structure Store where
  users : List User
  attendance : List Attendance
  nextId : Nat
deriving DecidableEq, Repr

/-- The authenticated caller, `req.user`; `role` is `none` when the token carries no role. -/
structure Caller where
  id : Nat
  role : Option String
deriving DecidableEq, Repr

/-! ## Shared helpers -/

/-- JavaScript `x || null` on an optional text: an absent, null or empty value becomes null. -/
def orNull (x : Option String) : Option String :=
  match x with
  | some v => if v = "" then none else some v
  | none => none

/-- SQL `COALESCE(a, b)` for a nullable column `b`. -/
def coalesce {α : Type} (a b : Option α) : Option α :=
  match a with
  | some v => some v
  | none => b

/-- The UTC calendar day of an instant: `new Date(now).toISOString().split('T')[0]`. -/
def workDateOf (now : Int) : Int := now / 86400000

/-- The query `SELECT * FROM attendance WHERE user_id = $1 AND work_date = $2 AND status = $3`. -/
def selectByStatus (s : Store) (userId : Nat) (workDate : Int) (status : String) :
    List Attendance :=
  s.attendance.filter
    (fun a => a.user_id == userId && a.work_date == workDate && a.status == status)

/-- Modelled from the spec: the table definition of `attendance` is not among the sources; the
store assigns the identifier, and the clock-in and last-updated timestamps of a new row are the
store's current timestamp, with clock-out and total-hours null.
`INSERT INTO attendance (user_id, work_date, notes, status) VALUES (...) RETURNING *`. -/
def insertAttendance (s : Store) (userId : Nat) (workDate : Int) (notes : Option String)
    (status : String) (dbNow : Int) : Attendance × Store :=
  let row : Attendance :=
    { id := s.nextId, user_id := userId, work_date := workDate, clock_in_time := dbNow,
      clock_out_time := none, notes := notes, status := status, total_hours := none,
      updated_at := dbNow }
  (row, { s with attendance := s.attendance ++ [row], nextId := s.nextId + 1 })

/-- The projection `id, name, email` of a user row. -/
structure UserProfile where
  id : Nat
  name : String
  email : String
deriving DecidableEq, Repr

/-- The first row of `SELECT id, name, email FROM users WHERE id = $1`. -/
def selectUserProfile (s : Store) (userId : Nat) : Option UserProfile :=
  ((s.users.filter (fun u => u.id == userId)).map
    (fun u => ({ id := u.id, name := u.name, email := u.email } : UserProfile))).head?

/-! ## clockIn and clockOut -/

/-- Response of `clockIn`. -/
inductive ClockInResponse where
  /-- Status 400, `success: false`, "You have already clocked in today. Please clock out
  first.", `data` the existing row. -/
  | alreadyClockedIn (data : Attendance)
  /-- Status 201, `success: true`, the created row and the user's profile. -/
  | created (attendance : Attendance) (user : Option UserProfile)
deriving DecidableEq, Repr

/-- The controller `clockIn`: `now` is the server clock read for the work date, `dbNow` the
store's `CURRENT_TIMESTAMP`. -/
def clockIn (s : Store) (userId : Nat) (notes : Option String) (now dbNow : Int) :
    ClockInResponse × Store :=
  let workDate := workDateOf now
  match selectByStatus s userId workDate "active" with
  | existing :: _ => (.alreadyClockedIn existing, s)
  | [] =>
    let (row, s1) := insertAttendance s userId workDate (orNull notes) "active" dbNow
    (.created row (selectUserProfile s1 userId), s1)

/-- The statement `UPDATE attendance SET clock_out_time = $1, notes = COALESCE($2, notes),
updated_at = CURRENT_TIMESTAMP WHERE id = $3`. -/
def updateClockOut (s : Store) (clockOutTime : Int) (notes : Option String) (id : Nat)
    (dbNow : Int) : Store :=
  { s with attendance := s.attendance.map (fun a =>
      if a.id = id then
        { a with clock_out_time := some clockOutTime, notes := coalesce notes a.notes,
                 updated_at := dbNow }
      else a) }

/-- The hours between two instants as the controller computes them:
`(clockOutTime - clockInTime) / (1000 * 60 * 60)`. -/
def hoursBetween (clockInTime clockOutTime : Int) : ℚ :=
  jsDiv (jsSub clockOutTime clockInTime) (1000 * 60 * 60)

/-- The controller's `Math.round(h * 100) / 100`. -/
def roundTwoPlaces (h : ℚ) : ℚ := jsDiv (mathRound (jsMul h 100)) 100

/-- Response of `clockOut`. -/
inductive ClockOutResponse where
  /-- Status 400, `success: false`, "No active clock-in found for today. Please clock in
  first." -/
  | noActiveClockIn
  /-- Status 200, `success: true`, the updated row and `totalHours`. -/
  | clockedOut (attendance : Option Attendance) (totalHours : ℚ)
deriving DecidableEq, Repr

/-- The controller `clockOut`: `now` is the server clock read for the work date,
`clockOutTime` the second reading `new Date()`, `dbNow` the store's `CURRENT_TIMESTAMP`. -/
def clockOut (s : Store) (userId : Nat) (notes : Option String)
    (now clockOutTime dbNow : Int) : ClockOutResponse × Store :=
  match selectByStatus s userId (workDateOf now) "active" with
  | [] => (.noActiveClockIn, s)
  | attendanceRecord :: _ =>
    let s1 := updateClockOut s clockOutTime (orNull notes) attendanceRecord.id dbNow
    let updated := (s1.attendance.filter (fun a => a.id == attendanceRecord.id)).head?
    let totalHours := hoursBetween attendanceRecord.clock_in_time clockOutTime
    (.clockedOut updated (roundTwoPlaces totalHours), s1)

/-- A request to one of the two session operations. -/
inductive SessionOp where
  | clockIn (userId : Nat) (notes : Option String) (now dbNow : Int)
  | clockOut (userId : Nat) (notes : Option String) (now clockOutTime dbNow : Int)
deriving DecidableEq, Repr

/-- The store after one session operation. -/
def applyOp (s : Store) : SessionOp → Store
  | .clockIn userId notes now dbNow => (clockIn s userId notes now dbNow).2
  | .clockOut userId notes now clockOutTime dbNow =>
    (clockOut s userId notes now clockOutTime dbNow).2

/-- The store after a sequence of session operations executed one after the other. -/
def applyOps (s : Store) (ops : List SessionOp) : Store := ops.foldl applyOp s

/-- At most one row of status `active` for every user and work date. -/
def AtMostOneActive (s : Store) : Prop :=
  ∀ (userId : Nat) (workDate : Int), (selectByStatus s userId workDate "active").length ≤ 1

/-- Reference definition of rounding to two decimal places: the number of hundredths nearest
to the non-negative rational `x`, a tie going away from zero. -/
def roundHundredths (x : ℚ) : ℤ := ⌊x * 100 + 1 / 2⌋

/-! ## Attendance history -/

/-- A row `a.*, u.name, u.email` of the join of `attendance` with `users`; `role` is selected
by `getAllUsersAttendance` only. -/
structure HistoryRow where
  attendance : Attendance
  name : String
  email : String
  role : Option String
deriving DecidableEq, Repr

/-- The `pagination` object of a history response; `totalPages` is `none` when
`Math.ceil(count / limit)` is not a finite number (division by a zero limit). -/
structure Pagination where
  currentPage : ℚ
  totalPages : Option ℤ
  totalRecords : ℚ
  recordsPerPage : ℚ
deriving DecidableEq, Repr

/-- Response of `getUserAttendance` and `getAllUsersAttendance`. -/
inductive HistoryResponse where
  /-- Status 403, `success: false`, "Forbidden: Admin access required". -/
  | forbidden
  /-- Status 500: the store rejected the query (a `LIMIT` or `OFFSET` that is negative or
  outside its 64-bit integer type). -/
  | serverError
  /-- Status 200, `success: true`, the page of rows and the pagination object. -/
  | ok (attendance : List HistoryRow) (pagination : Pagination)
deriving DecidableEq, Repr

/-- JavaScript `ToNumber` of a query value that denotes an integer. -/
def toNumber (i : Int) : ℚ := toDouble i

/-- The join `FROM attendance a JOIN users u ON a.user_id = u.id`. -/
def joinUsers (s : Store) : List (Attendance × User) :=
  s.attendance.flatMap
    (fun a => (s.users.filter (fun u => u.id == a.user_id)).map (fun u => (a, u)))

/-- The optional conditions `work_date >= startDate` and `work_date <= endDate`. -/
def inDateRange (startDate endDate : Option Int) (workDate : Int) : Bool :=
  (match startDate with
   | some d => decide (d ≤ workDate)
   | none => true) &&
  (match endDate with
   | some d => decide (workDate ≤ d)
   | none => true)

/-- The order `ORDER BY a.work_date DESC, a.clock_in_time DESC`. -/
def newestFirst (x y : Attendance × User) : Prop :=
  y.1.work_date < x.1.work_date ∨
    (y.1.work_date = x.1.work_date ∧ y.1.clock_in_time ≤ x.1.clock_in_time)

instance : DecidableRel newestFirst := fun x y => by
  unfold newestFirst
  exact inferInstance

/-- The order `ORDER BY a.work_date DESC, u.name ASC, a.clock_in_time DESC`. -/
def newestFirstByName (x y : Attendance × User) : Prop :=
  y.1.work_date < x.1.work_date ∨
    (y.1.work_date = x.1.work_date ∧
      (x.2.name < y.2.name ∨ (x.2.name = y.2.name ∧ y.1.clock_in_time ≤ x.1.clock_in_time)))

instance : DecidableRel newestFirstByName := fun x y => by
  unfold newestFirstByName
  exact inferInstance

/-- The selection `a.*, u.name, u.email` of a joined row. -/
def historyRow (r : Attendance × User) : HistoryRow :=
  { attendance := r.1, name := r.2.name, email := r.2.email, role := none }

/-- The selection `a.*, u.name, u.email, u.role` of a joined row. -/
def historyRowWithRole (r : Attendance × User) : HistoryRow :=
  { attendance := r.1, name := r.2.name, email := r.2.email, role := some r.2.role }

/-- The clause `LIMIT limit OFFSET offset` on an ordered result. -/
def limitOffset {α : Type} (rows : List α) (limit offset : Nat) : List α :=
  (rows.drop offset).take limit

/-- The ordered rows matched by the history query of `getUserAttendance`. -/
def userHistory (s : Store) (userId : Nat) (startDate endDate : Option Int) :
    List (Attendance × User) :=
  ((joinUsers s).filter
    (fun r => r.1.user_id == userId && inDateRange startDate endDate r.1.work_date)).insertionSort
    newestFirst

/-- The count `SELECT COUNT(*) FROM attendance WHERE user_id = $1` with the optional date
conditions. -/
def userHistoryCount (s : Store) (userId : Nat) (startDate endDate : Option Int) : Nat :=
  (s.attendance.filter
    (fun a => a.user_id == userId && inDateRange startDate endDate a.work_date)).length

/-- The `pagination` object: `parseInt(page)`, `Math.ceil(count / limit)`, `parseInt(count)`,
`parseInt(limit)`. -/
def paginationOf (page limit : Int) (count : Nat) : Pagination :=
  { currentPage := toNumber page
    totalPages := if limit = 0 then none else some ⌈jsDiv (toNumber count) (toNumber limit)⌉
    totalRecords := toNumber count
    recordsPerPage := toNumber limit }

/-- The controller `getUserAttendance`; `page` and `limit` are the integers the query values
denote, `none` when absent (defaults 1 and 10). -/
def getUserAttendance (s : Store) (userId : Nat) (startDate endDate : Option Int)
    (page limit : Option Int) : HistoryResponse :=
  let page := page.getD 1
  let limit := limit.getD 10
  let offset := jsMul (jsSub (toNumber page) 1) (toNumber limit)
  if limit < 0 ∨ 2 ^ 63 ≤ limit ∨ offset < 0 ∨ 2 ^ 63 ≤ offset then .serverError
  else
    let rows := limitOffset (userHistory s userId startDate endDate) limit.toNat ⌊offset⌋.toNat
    .ok (rows.map historyRow)
      (paginationOf page limit (userHistoryCount s userId startDate endDate))

/-- The rows matched by the queries of `getAllUsersAttendance`, before ordering. -/
def allHistoryMatches (s : Store) (startDate endDate : Option Int) (userId : Option Nat) :
    List (Attendance × User) :=
  (joinUsers s).filter
    (fun r => inDateRange startDate endDate r.1.work_date &&
      (match userId with
       | some u => r.1.user_id == u
       | none => true))

/-- The controller `getAllUsersAttendance` (default page 1, default limit 20). -/
def getAllUsersAttendance (s : Store) (caller : Caller) (startDate endDate : Option Int)
    (userId : Option Nat) (page limit : Option Int) : HistoryResponse :=
  if caller.role ≠ some "admin" then .forbidden
  else
    let page := page.getD 1
    let limit := limit.getD 20
    let offset := jsMul (jsSub (toNumber page) 1) (toNumber limit)
    if limit < 0 ∨ 2 ^ 63 ≤ limit ∨ offset < 0 ∨ 2 ^ 63 ≤ offset then .serverError
    else
      let ordered := (allHistoryMatches s startDate endDate userId).insertionSort
        newestFirstByName
      let rows := limitOffset ordered limit.toNat ⌊offset⌋.toNat
      .ok (rows.map historyRowWithRole)
        (paginationOf page limit (allHistoryMatches s startDate endDate userId).length)

/-- Every attendance row references exactly one user row (identifiers of users are unique and
`attendance.user_id` is a foreign key). -/
def ReferentialIntegrity (s : Store) : Prop :=
  ∀ a ∈ s.attendance, ((s.users.filter (fun u => u.id == a.user_id)).length = 1)

instance (s : Store) : Decidable (ReferentialIntegrity s) := by
  unfold ReferentialIntegrity
  exact inferInstance

/-! ## Attendance report -/

/-- Exact value of a decimal. -/
def PgNumeric.value (v : PgNumeric) : ℚ := (v.unscaled : ℚ) / 10 ^ v.scale

/-- The decimal digit `d` as a character. -/
def digitChar (d : Nat) : Char := Char.ofNat (48 + d % 10)

/-- Decimal digits of `n`, most significant first, by dividing at most `fuel` times. -/
def decDigits : Nat → Nat → List Char
  | 0, _ => []
  | fuel + 1, n => if n < 10 then [digitChar n] else decDigits fuel (n / 10) ++ [digitChar n]

/-- Decimal digits of a natural number. -/
def natDigits (n : Nat) : List Char := decDigits (n + 1) n

/-- The digits of `n` with zeros in front up to a width of at least `width`. -/
def padDigits (width : Nat) (n : Nat) : List Char :=
  List.replicate (width - (natDigits n).length) '0' ++ natDigits n

/-- Text of the non-negative decimal `n / 10 ^ scale` with `scale` digits after the point. -/
def fixedText (n scale : Nat) : List Char :=
  if scale = 0 then natDigits n
  else natDigits (n / 10 ^ scale) ++ '.' :: padDigits scale (n % 10 ^ scale)

/-- The text in which the store's driver hands a decimal to the controller. -/
def PgNumeric.text (v : PgNumeric) : String :=
  String.mk ((if v.unscaled < 0 then ['-'] else []) ++ fixedText v.unscaled.natAbs v.scale)

/-- JavaScript `parseFloat` of the text of a decimal: the nearest double. -/
def parseFloat (v : PgNumeric) : ℚ := toDouble v.value

/-- JavaScript `x.toFixed(2)` of a double of magnitude below `10 ^ 21`: the nearest multiple of
`1/100` to `|x|`, a tie going up, behind the sign of `x`.  From `10 ^ 21` on JavaScript prints
the exponential notation of the number instead, which is outside the model (`none`). -/
def toFixed2 (x : ℚ) : Option String :=
  if (10 : ℚ) ^ 21 ≤ |x| then none
  else
    some (String.mk ((if x < 0 then ['-'] else []) ++ fixedText ⌊|x| * 100 + 1 / 2⌋.toNat 2))

/-- A text with exactly two decimal places: an optional sign, at least one digit, a point and
two digits. -/
def isTwoDecimalText (t : String) : Bool :=
  match t.data.reverse with
  | d2 :: d1 :: '.' :: rest =>
    d1.isDigit && d2.isDigit &&
      (match rest.reverse with
       | [] => false
       | '-' :: ds => !ds.isEmpty && ds.all Char.isDigit
       | ds => ds.all Char.isDigit)
  | _ => false

/-- A row of the report query. -/
structure ReportRow where
  id : Nat
  name : String
  email : String
  role : String
  total_days_worked : Nat
  total_hours_worked : PgNumeric
  average_hours_per_day : PgNumeric
  incomplete_days : Nat
deriving DecidableEq, Repr

/-- Sum of two decimals, at the larger scale. -/
def PgNumeric.add (a b : PgNumeric) : PgNumeric :=
  { unscaled := a.unscaled * 10 ^ (max a.scale b.scale - a.scale) +
      b.unscaled * 10 ^ (max a.scale b.scale - b.scale)
    scale := max a.scale b.scale }

/-- SQL `SUM` over the non-null values: null when there is none. -/
def pgSum : List PgNumeric → Option PgNumeric
  | [] => none
  | v :: vs => some (vs.foldl PgNumeric.add v)

/-- SQL `COALESCE(x, 0)` on a decimal aggregate. -/
def coalesceZero (x : Option PgNumeric) : PgNumeric :=
  match x with
  | some v => v
  | none => { unscaled := 0, scale := 0 }

/-- The attendance rows the `LEFT JOIN` pairs with user `u`:
`u.id = a.user_id AND a.work_date >= $1 AND a.work_date <= $2`, and `AND u.id = $3` when a
target user is given. -/
def reportMatches (s : Store) (startDate endDate : Int) (userId : Option Nat) (u : User) :
    List Attendance :=
  s.attendance.filter (fun a =>
    u.id == a.user_id && decide (startDate ≤ a.work_date) && decide (a.work_date ≤ endDate) &&
      (match userId with
       | some target => u.id == target
       | none => true))

/-- The summary row of the group of user `u`; `pgAvg` is the store's `AVG` over a non-empty
list of decimals (its division and display scale belong to the store). -/
def summaryRow (pgAvg : List PgNumeric → PgNumeric) (s : Store) (startDate endDate : Int)
    (userId : Option Nat) (u : User) : ReportRow :=
  let joined := reportMatches s startDate endDate userId u
  let hours := joined.filterMap (fun a => a.total_hours)
  { id := u.id, name := u.name, email := u.email, role := u.role
    total_days_worked := joined.length
    total_hours_worked := coalesceZero (pgSum hours)
    average_hours_per_day := coalesceZero (if hours.isEmpty then none else some (pgAvg hours))
    incomplete_days := (joined.filter (fun a => a.status == "active")).length }

/-- The order `ORDER BY u.name`. -/
def byName (x y : ReportRow) : Prop := ¬ (y.name < x.name)

instance : DecidableRel byName := fun x y => by
  unfold byName
  exact inferInstance

/-- The report query: `users u LEFT JOIN attendance a ON ...`, grouped by the user columns
(one group per user row, `users.id` being the key of the table), ordered by name. -/
def reportQuery (pgAvg : List PgNumeric → PgNumeric) (s : Store) (startDate endDate : Int)
    (userId : Option Nat) : List ReportRow :=
  (s.users.map (summaryRow pgAvg s startDate endDate userId)).insertionSort byName

/-- The object `stats` of `generateAttendanceReport` before it is rendered. -/
structure ReportStats where
  totalUsers : Nat
  totalHoursAllUsers : ℚ
  averageHoursPerUser : ℚ
  mostActiveUser : Option ReportRow
deriving DecidableEq, Repr

/-- The call `rows.reduce((max, user) => parseFloat(user.total_hours_worked) >
parseFloat(max.total_hours_worked) ? user : max)` on a non-empty list. -/
def reduceMostActive (first : ReportRow) (rest : List ReportRow) : ReportRow :=
  rest.foldl (fun max user =>
    if parseFloat max.total_hours_worked < parseFloat user.total_hours_worked then user
    else max) first

/-- The statistics computed from the rows of the report query. -/
def reportStats (rows : List ReportRow) : ReportStats :=
  let totalUsers := rows.length
  let totalHoursAllUsers :=
    rows.foldl (fun sum user => jsAdd sum (parseFloat user.total_hours_worked)) 0
  match rows with
  | [] =>
    { totalUsers := totalUsers, totalHoursAllUsers := totalHoursAllUsers
      averageHoursPerUser := 0, mostActiveUser := none }
  | first :: rest =>
    { totalUsers := totalUsers, totalHoursAllUsers := totalHoursAllUsers
      averageHoursPerUser := jsDiv totalHoursAllUsers totalUsers
      mostActiveUser := some (reduceMostActive first rest) }

/-- The hours of a summary row as a number, `parseFloat(row.total_hours_worked)`. -/
def hoursOf (row : ReportRow) : ℚ := parseFloat row.total_hours_worked

/-- Reference definition of the total: the exact sum of the rows' `total_hours_worked`. -/
def exactTotalHours (rows : List ReportRow) : ℚ :=
  (rows.map (fun r => r.total_hours_worked.value)).sum

/-- The exact sum of the magnitudes of the rows' `total_hours_worked`. -/
def absTotalHours (rows : List ReportRow) : ℚ :=
  (rows.map (fun r => |r.total_hours_worked.value|)).sum

/-- Reference definition of the most active user: the first row in list order whose hours are
the maximum over all rows, and none when there is no row. -/
def referenceMostActive (rows : List ReportRow) : Option ReportRow :=
  rows.find? (fun r => rows.all (fun q => decide (hoursOf q ≤ hoursOf r)))

/-- A row of `data.report`: the query row with both hour columns replaced by `toFixed(2)`. -/
structure RenderedRow where
  id : Nat
  name : String
  email : String
  role : String
  total_days_worked : Nat
  total_hours_worked : Option String
  average_hours_per_day : Option String
  incomplete_days : Nat
deriving DecidableEq, Repr

/-- The query row as it is serialised when passed on untouched: decimals as their text. -/
structure RawRow where
  id : Nat
  name : String
  email : String
  role : String
  total_days_worked : Nat
  total_hours_worked : String
  average_hours_per_day : String
  incomplete_days : Nat
deriving DecidableEq, Repr

/-- The object `data.statistics`: `stats` with both totals replaced by `toFixed(2)`. -/
structure RenderedStats where
  totalUsers : Nat
  totalHoursAllUsers : Option String
  averageHoursPerUser : Option String
  mostActiveUser : Option RawRow
  dateRange : Int × Int
deriving DecidableEq, Repr

/-- Response of `generateAttendanceReport`. -/
inductive ReportResponse where
  /-- Status 403, `success: false`, "Forbidden: Admin access required". -/
  | forbidden
  /-- Status 400, "Start date and end date are required for report generation". -/
  | datesRequired
  /-- Status 200, `success: true`, the rendered rows and statistics. -/
  | ok (report : List RenderedRow) (statistics : RenderedStats)
deriving DecidableEq, Repr

/-- The `map` over `reportData.rows`. -/
def renderRow (row : ReportRow) : RenderedRow :=
  { id := row.id, name := row.name, email := row.email, role := row.role
    total_days_worked := row.total_days_worked
    total_hours_worked := toFixed2 (parseFloat row.total_hours_worked)
    average_hours_per_day := toFixed2 (parseFloat row.average_hours_per_day)
    incomplete_days := row.incomplete_days }

/-- Serialisation of a query row that the controller passes on as it came from the store. -/
def rawRow (row : ReportRow) : RawRow :=
  { id := row.id, name := row.name, email := row.email, role := row.role
    total_days_worked := row.total_days_worked
    total_hours_worked := row.total_hours_worked.text
    average_hours_per_day := row.average_hours_per_day.text
    incomplete_days := row.incomplete_days }

/-- The object `{ ...stats, totalHoursAllUsers: ..., averageHoursPerUser: ... }`. -/
def renderStats (stats : ReportStats) (startDate endDate : Int) : RenderedStats :=
  { totalUsers := stats.totalUsers
    totalHoursAllUsers := toFixed2 stats.totalHoursAllUsers
    averageHoursPerUser := toFixed2 stats.averageHoursPerUser
    mostActiveUser := stats.mostActiveUser.map rawRow
    dateRange := (startDate, endDate) }

/-- The controller `generateAttendanceReport`; a date is `none` when absent or empty. -/
def generateAttendanceReport (pgAvg : List PgNumeric → PgNumeric) (s : Store) (caller : Caller)
    (startDate endDate : Option Int) (userId : Option Nat) : ReportResponse :=
  if caller.role ≠ some "admin" then .forbidden
  else
    match startDate, endDate with
    | some startDate, some endDate =>
      let rows := reportQuery pgAvg s startDate endDate userId
      .ok (rows.map renderRow) (renderStats (reportStats rows) startDate endDate)
    | _, _ => .datesRequired

/-- Every hour figure of a report response, `none` standing for a figure outside the model. -/
def hourFigures : ReportResponse → List (Option String)
  | .ok report statistics =>
    report.flatMap (fun r => [r.total_hours_worked, r.average_hours_per_day]) ++
      [statistics.totalHoursAllUsers, statistics.averageHoursPerUser] ++
      (match statistics.mostActiveUser with
       | some m => [some m.total_hours_worked, some m.average_hours_per_day]
       | none => [])
  | _ => []

/-! ## updateAttendanceRecord -/

/-- The body of an update request.  A timestamp of the patch is a non-empty date text, given
here by the instant it denotes; `none` stands for an absent, null or empty value. -/
structure AttendancePatch where
  clock_in_time : Option Int
  clock_out_time : Option Int
  notes : Option String
  status : Option String
deriving DecidableEq, Repr

/-- Response of `updateAttendanceRecord`. -/
inductive UpdateResponse where
  /-- Status 403, `success: false`, "Forbidden: Admin access required". -/
  | forbidden
  /-- Status 404, `success: false`, "Attendance record not found". -/
  | notFound
  /-- Status 200, `success: true`, the updated row. -/
  | updated (data : Option Attendance)
deriving DecidableEq, Repr

/-- The `UPDATE attendance SET clock_in_time = COALESCE($1, clock_in_time), ... WHERE id = $5`
of `updateAttendanceRecord` on one row. -/
def applyPatch (patch : AttendancePatch) (dbNow : Int) (a : Attendance) : Attendance :=
  { a with
    clock_in_time := (patch.clock_in_time).getD a.clock_in_time
    clock_out_time := coalesce patch.clock_out_time a.clock_out_time
    notes := coalesce (orNull patch.notes) a.notes
    status := (orNull patch.status).getD a.status
    updated_at := dbNow }

/-- The controller `updateAttendanceRecord`. -/
def updateAttendanceRecord (s : Store) (caller : Caller) (id : Nat) (patch : AttendancePatch)
    (dbNow : Int) : UpdateResponse × Store :=
  if caller.role ≠ some "admin" then (.forbidden, s)
  else
    match s.attendance.filter (fun a => a.id == id) with
    | [] => (.notFound, s)
    | _ :: _ =>
      let s1 : Store :=
        { s with attendance := s.attendance.map (fun a =>
            if a.id = id then applyPatch patch dbNow a else a) }
      (.updated ((s1.attendance.filter (fun a => a.id == id)).head?), s1)

/-- Clock-out, when present, is not before clock-in, on every attendance row. -/
def ClockOutAfterClockIn (s : Store) : Prop :=
  ∀ a ∈ s.attendance, ∀ t, a.clock_out_time = some t → a.clock_in_time ≤ t

/-! ## Example stores -/

/-- A store with one open session of user 1 that began at instant 0. -/
def storeOneSession : Store :=
  { users := [{ id := 1, name := "Ann", email := "ann@example.org", role := "user" }]
    attendance := [{ id := 1, user_id := 1, work_date := 0, clock_in_time := 0,
                     clock_out_time := none, notes := none, status := "active",
                     total_hours := none, updated_at := 0 }]
    nextId := 2 }

/-- The open session of user 1 that began at 09:00:00 of day 0. -/
def sessionAtNine : Attendance :=
  { id := 1, user_id := 1, work_date := 0, clock_in_time := 32400000, clock_out_time := none,
    notes := none, status := "active", total_hours := none, updated_at := 32400000 }

/-- A store whose only attendance row is `sessionAtNine`. -/
def storeAtNine : Store := { storeOneSession with attendance := [sessionAtNine] }

/-- Twenty-five sessions of user 1, one on each of the days 0 to 24, begun at 09:00:00. -/
def storeTwentyFive : Store :=
  { users := [{ id := 1, name := "Ann", email := "ann@example.org", role := "user" }]
    attendance := (List.range 25).map (fun i =>
      { id := i + 1, user_id := 1, work_date := i, clock_in_time := 86400000 * i + 32400000,
        clock_out_time := none, notes := none, status := "active", total_hours := none,
        updated_at := 86400000 * i + 32400000 })
    nextId := 26 }

/-- Two users with one closed session of 8.50 hours each on day 3. -/
def storeTwoUsers : Store :=
  { users := [{ id := 1, name := "Ann", email := "ann@example.org", role := "user" },
              { id := 2, name := "Bob", email := "bob@example.org", role := "user" }]
    attendance :=
      [{ id := 1, user_id := 1, work_date := 3, clock_in_time := 291600000,
         clock_out_time := some 322200000, notes := none, status := "active",
         total_hours := some { unscaled := 850, scale := 2 }, updated_at := 322200000 },
       { id := 2, user_id := 2, work_date := 3, clock_in_time := 291600000,
         clock_out_time := some 322200000, notes := some "desk", status := "active",
         total_hours := some { unscaled := 850, scale := 2 }, updated_at := 322200000 }]
    nextId := 3 }

/-- The store's `AVG` on the example stores, where no user has more than one session: the
average of a single value is that value. -/
def avgOfOne (hours : List PgNumeric) : PgNumeric := coalesceZero hours.head?

/-- An administrator. -/
def adminCaller : Caller := { id := 9, role := some "admin" }

/-- Two summary rows of 0.10 and 0.20 hours. -/
def rowsTenthAndFifth : List ReportRow :=
  [{ id := 1, name := "Ann", email := "ann@example.org", role := "user",
     total_days_worked := 1, total_hours_worked := { unscaled := 10, scale := 2 },
     average_hours_per_day := { unscaled := 10, scale := 2 }, incomplete_days := 0 },
   { id := 2, name := "Bob", email := "bob@example.org", role := "user",
     total_days_worked := 1, total_hours_worked := { unscaled := 20, scale := 2 },
     average_hours_per_day := { unscaled := 20, scale := 2 }, incomplete_days := 0 }]

/-- Two summary rows of 0.03 and 0.00 hours. -/
def rowsThreeHundredths : List ReportRow :=
  [{ id := 1, name := "Ann", email := "ann@example.org", role := "user",
     total_days_worked := 1, total_hours_worked := { unscaled := 3, scale := 2 },
     average_hours_per_day := { unscaled := 3, scale := 2 }, incomplete_days := 0 },
   { id := 2, name := "Bob", email := "bob@example.org", role := "user",
     total_days_worked := 0, total_hours_worked := { unscaled := 0, scale := 2 },
     average_hours_per_day := { unscaled := 0, scale := 2 }, incomplete_days := 0 }]

/-- Two sessions of user 1 in a store that has no row for user 1 in `users`. -/
def storeWithoutUser : Store :=
  { users := [{ id := 2, name := "Bob", email := "bob@example.org", role := "user" }]
    attendance :=
      [{ id := 1, user_id := 1, work_date := 3, clock_in_time := 291600000,
         clock_out_time := some 322200000, notes := none, status := "active",
         total_hours := some { unscaled := 850, scale := 2 }, updated_at := 322200000 },
       { id := 2, user_id := 1, work_date := 4, clock_in_time := 378000000,
         clock_out_time := none, notes := none, status := "active",
         total_hours := none, updated_at := 378000000 }]
    nextId := 3 }

/-! ## Theorems -/

/-! ### Rounding to a double -/

theorem roundHalfEven_sub_abs_le (x : ℚ) : |(roundHalfEven x : ℚ) - x| ≤ 1 / 2 := by
  have h1 := Int.floor_le x
  have h2 := Int.lt_floor_add_one x
  unfold roundHalfEven
  simp only
  split_ifs <;> push_cast <;> rw [abs_le] <;> constructor <;> linarith

theorem roundHalfEven_intCast (n : ℤ) : roundHalfEven (n : ℚ) = n := by
  unfold roundHalfEven
  simp

theorem bitLen_spec (fuel : Nat) : ∀ n : Nat, n ≤ fuel →
    n < 2 ^ bitLen fuel n ∧ (n ≠ 0 → 2 ^ (bitLen fuel n - 1) ≤ n) := by
  induction fuel with
  | zero =>
    intro n hn
    have : n = 0 := by omega
    subst this
    simp [bitLen]
  | succ f ih =>
    intro n hn
    by_cases h0 : n = 0
    · subst h0
      simp [bitLen]
    · have hle : n / 2 ≤ f := by omega
      obtain ⟨ih1, ih2⟩ := ih (n / 2) hle
      simp only [bitLen, h0, if_false, Nat.add_sub_cancel]
      refine ⟨?_, fun _ => ?_⟩
      · rw [pow_succ]
        omega
      · by_cases h2 : n / 2 = 0
        · have hb : bitLen f (n / 2) = 0 := by
            rw [h2]
            cases f <;> simp [bitLen]
          rw [hb]
          simp
          omega
        · have := ih2 h2
          have hk : 2 ^ bitLen f (n / 2) ≤ 2 * 2 ^ (bitLen f (n / 2) - 1) := by
            rw [← pow_succ']
            exact Nat.pow_le_pow_right (by norm_num) (by omega)
          omega

theorem abs_eq_natAbs_div_den (x : ℚ) : |x| = (x.num.natAbs : ℚ) / (x.den : ℚ) := by
  conv_lhs => rw [← Rat.num_div_den x]
  rw [abs_div, Nat.abs_cast, Nat.cast_natAbs, Int.cast_abs]

theorem binExp_le (x : ℚ) (hx : x ≠ 0) : (2 : ℚ) ^ binExp x ≤ |x| := by
  unfold binExp
  simp only
  split_ifs with h
  · exact h
  · have hn : x.num.natAbs ≠ 0 := by
      simpa [Int.natAbs_eq_zero] using hx
    obtain ⟨_, hn2⟩ := bitLen_spec x.num.natAbs x.num.natAbs le_rfl
    obtain ⟨hd1, _⟩ := bitLen_spec x.den x.den le_rfl
    have hn3 := hn2 hn
    have hpos : 1 ≤ bitLen x.num.natAbs x.num.natAbs := by
      by_contra hc
      have h0 : bitLen x.num.natAbs x.num.natAbs = 0 := by omega
      obtain ⟨hlt, _⟩ := bitLen_spec x.num.natAbs x.num.natAbs le_rfl
      rw [h0] at hlt
      omega
    set a := bitLen x.num.natAbs x.num.natAbs
    set b := bitLen x.den x.den
    have he : ((a : ℤ) - (b : ℤ) - 1) = ((a - 1 : ℕ) : ℤ) - (b : ℤ) := by omega
    rw [he, zpow_sub₀ (by norm_num : (2 : ℚ) ≠ 0), zpow_natCast, zpow_natCast,
      abs_eq_natAbs_div_den]
    have hdpos : (0 : ℚ) < x.den := by exact_mod_cast x.den_pos
    rw [div_le_div_iff₀ (by positivity) hdpos]
    have e1 : ((2 : ℚ) ^ (a - 1)) ≤ (x.num.natAbs : ℚ) := by exact_mod_cast hn3
    have e2 : (x.den : ℚ) ≤ (2 : ℚ) ^ b := by exact_mod_cast hd1.le
    exact mul_le_mul e1 e2 hdpos.le (by positivity)

theorem abs_lt_binExp_succ (x : ℚ) (hx : x ≠ 0) : |x| < (2 : ℚ) ^ (binExp x + 1) := by
  unfold binExp
  simp only
  split_ifs with h
  · have hd0 : x.den ≠ 0 := x.den_nz
    obtain ⟨hn1, _⟩ := bitLen_spec x.num.natAbs x.num.natAbs le_rfl
    obtain ⟨hd1, hd2⟩ := bitLen_spec x.den x.den le_rfl
    have hd3 := hd2 hd0
    have hpos : 1 ≤ bitLen x.den x.den := by
      by_contra hc
      have h0 : bitLen x.den x.den = 0 := by omega
      rw [h0] at hd1
      have := x.den_pos
      omega
    set a := bitLen x.num.natAbs x.num.natAbs
    set b := bitLen x.den x.den
    have he : ((a : ℤ) - (b : ℤ) + 1) = (a : ℤ) - ((b - 1 : ℕ) : ℤ) := by omega
    rw [he, zpow_sub₀ (by norm_num : (2 : ℚ) ≠ 0), zpow_natCast, zpow_natCast,
      abs_eq_natAbs_div_den]
    have hdpos : (0 : ℚ) < x.den := by exact_mod_cast x.den_pos
    rw [div_lt_div_iff₀ hdpos (by positivity)]
    have e1 : (x.num.natAbs : ℚ) < (2 : ℚ) ^ a := by exact_mod_cast hn1
    have e2 : ((2 : ℚ) ^ (b - 1)) ≤ (x.den : ℚ) := by exact_mod_cast hd3
    calc (x.num.natAbs : ℚ) * 2 ^ (b - 1) ≤ (x.num.natAbs : ℚ) * x.den := by gcongr
      _ < 2 ^ a * x.den := by gcongr
  · have : ((bitLen x.num.natAbs x.num.natAbs : ℤ) - (bitLen x.den x.den : ℤ) - 1 + 1) =
        (bitLen x.num.natAbs x.num.natAbs : ℤ) - (bitLen x.den x.den : ℤ) := by ring
    rw [this]
    exact not_le.1 h

theorem toDouble_sub_abs_le (x : ℚ) : |toDouble x - x| ≤ |x| / 2 ^ 53 := by
  unfold toDouble
  split_ifs with h0
  · simp [h0]
  · simp only
    have hb := binExp_le x h0
    set e := binExp x
    have hu : (0 : ℚ) < 2 ^ (e - 52) := by positivity
    have hr := roundHalfEven_sub_abs_le (x / 2 ^ (e - 52))
    have key : (roundHalfEven (x / 2 ^ (e - 52)) : ℚ) * 2 ^ (e - 52) - x
        = ((roundHalfEven (x / 2 ^ (e - 52)) : ℚ) - x / 2 ^ (e - 52)) * 2 ^ (e - 52) := by
      field_simp
    rw [key, abs_mul, abs_of_pos hu]
    have h53 : (2 : ℚ) ^ (e - 52) = 2 ^ e / 2 ^ 52 := by
      rw [zpow_sub₀ (by norm_num : (2 : ℚ) ≠ 0)]
      norm_num
    calc |(roundHalfEven (x / 2 ^ (e - 52)) : ℚ) - x / 2 ^ (e - 52)| * 2 ^ (e - 52)
        ≤ 1 / 2 * 2 ^ (e - 52) := by gcongr
      _ = 2 ^ e / 2 ^ 53 := by rw [h53]; ring
      _ ≤ |x| / 2 ^ 53 := by gcongr

theorem toDouble_intCast (n : ℤ) (hn : |n| < 2 ^ 53) : toDouble (n : ℚ) = n := by
  unfold toDouble
  split_ifs with h0
  · exact h0.symm
  · simp only
    have hb := binExp_le (n : ℚ) h0
    set e := binExp (n : ℚ)
    have hlt : (2 : ℚ) ^ e < 2 ^ (53 : ℤ) := by
      calc (2 : ℚ) ^ e ≤ |(n : ℚ)| := hb
        _ < 2 ^ (53 : ℤ) := by
          rw [← Int.cast_abs]
          have : ((|n| : ℤ) : ℚ) < ((2 ^ 53 : ℤ) : ℚ) := by exact_mod_cast hn
          norm_num at this ⊢
          exact this
    have he : e < 53 := (zpow_lt_zpow_iff_right₀ (by norm_num : (1 : ℚ) < 2)).1 hlt
    obtain ⟨k, hk⟩ : ∃ k : ℕ, (52 : ℤ) - e = k := ⟨(52 - e).toNat, by omega⟩
    have hpow : (n : ℚ) / 2 ^ (e - 52) = ((n * 2 ^ k : ℤ) : ℚ) := by
      have : e - 52 = -(k : ℤ) := by omega
      rw [this, zpow_neg, zpow_natCast]
      push_cast
      field_simp
    rw [hpow, roundHalfEven_intCast]
    have : e - 52 = -(k : ℤ) := by omega
    rw [this, zpow_neg, zpow_natCast]
    push_cast
    field_simp

/-! ### Total hours of a clock-out -/

theorem jsSub_instants (t0 t1 : Int) (h01 : t0 ≤ t1) (hb : t1 - t0 < 2 ^ 48) :
    jsSub (t1 : ℚ) (t0 : ℚ) = ((t1 - t0 : ℤ) : ℚ) := by
  unfold jsSub
  rw [← Int.cast_sub]
  apply toDouble_intCast
  rw [abs_of_nonneg (by omega)]
  omega

theorem mathRound_eq_of_near (d : ℤ) (b : ℚ) (htie : d % 36000 ≠ 18000)
    (hnear : |b - (d : ℚ) / 36000| < 1 / 36000) :
    mathRound b = roundHundredths ((d : ℚ) / 3600000) := by
  unfold mathRound roundHundredths
  set R := ⌊(d : ℚ) / 3600000 * 100 + 1 / 2⌋ with hR
  have h1 : (R : ℚ) ≤ (d : ℚ) / 3600000 * 100 + 1 / 2 := Int.floor_le _
  have h2 : (d : ℚ) / 3600000 * 100 + 1 / 2 < R + 1 := Int.lt_floor_add_one _
  have z1 : 36000 * R ≤ d + 18000 := by
    have : ((36000 * R : ℤ) : ℚ) ≤ ((d + 18000 : ℤ) : ℚ) := by
      push_cast
      linarith
    exact_mod_cast this
  have z2 : d + 18000 < 36000 * R + 36000 := by
    have : ((d + 18000 : ℤ) : ℚ) < ((36000 * R + 36000 : ℤ) : ℚ) := by
      push_cast
      linarith
    exact_mod_cast this
  have z3 : 36000 * R + 1 ≤ d + 18000 := by omega
  have z4 : d + 18000 ≤ 36000 * R + 35999 := by omega
  have q3 : (36000 * R + 1 : ℚ) ≤ d + 18000 := by exact_mod_cast z3
  have q4 : (d + 18000 : ℚ) ≤ 36000 * R + 35999 := by exact_mod_cast z4
  obtain ⟨n1, n2⟩ := abs_lt.1 hnear
  rw [Int.floor_eq_iff]
  constructor <;> linarith

theorem roundTwoPlaces_hoursBetween (t0 t1 : Int) (h01 : t0 ≤ t1) (hb : t1 - t0 < 2 ^ 48)
    (htie : (t1 - t0) % 36000 ≠ 18000) :
    roundTwoPlaces (hoursBetween t0 t1) =
      toDouble ((roundHundredths (((t1 - t0 : ℤ) : ℚ) / 3600000) : ℚ) / 100) := by
  unfold roundTwoPlaces hoursBetween
  rw [jsSub_instants t0 t1 h01 hb]
  set d := t1 - t0 with hd
  have hd0 : (0 : ℚ) ≤ d := by exact_mod_cast (show (0 : ℤ) ≤ d by omega)
  have hd48 : (d : ℚ) < 2 ^ 48 := by exact_mod_cast hb
  have hc : ((1000 : ℚ) * 60 * 60) = 3600000 := by norm_num
  unfold jsDiv jsMul
  rw [hc]
  set x := (d : ℚ) / 3600000 with hx
  have hx0 : 0 ≤ x := by positivity
  have ha := toDouble_sub_abs_le x
  rw [abs_of_nonneg hx0] at ha
  obtain ⟨a1, a2⟩ := abs_le.1 ha
  set a := toDouble x
  have ha0 : 0 ≤ a * 100 := by
    have : x / 2 ^ 53 ≤ x := div_le_self hx0 (by norm_num)
    nlinarith
  have hb2 := toDouble_sub_abs_le (a * 100)
  rw [abs_of_nonneg ha0] at hb2
  obtain ⟨b1, b2⟩ := abs_le.1 hb2
  have hnear : |toDouble (a * 100) - (d : ℚ) / 36000| < 1 / 36000 := by
    have hxd : (d : ℚ) / 36000 = x * 100 := by rw [hx]; ring
    have hxlt : x < 2 ^ 48 / 3600000 := by rw [hx]; gcongr
    rw [hxd, abs_lt]
    norm_num at a1 a2 b1 b2 hxlt ⊢
    constructor <;> linarith
  rw [mathRound_eq_of_near d _ htie hnear]

/-- C1, as amended: when the clock-out instant `t1` is not before the clock-in instant `t0` of
the matched record, the duration is below `2 ^ 48` ms and is not an exact tie
(`(t1 - t0) mod 36000 ≠ 18000`), `clockOut` succeeds and its `totalHours` is the double nearest
to `(t1 - t0) / 3600000` rounded to two decimal places. -/
theorem clockOut_totalHours (s : Store) (userId : Nat) (notes : Option String)
    (now t1 dbNow : Int) (record : Attendance) (rest : List Attendance)
    (hsel : selectByStatus s userId (workDateOf now) "active" = record :: rest)
    (h01 : record.clock_in_time ≤ t1) (hb : t1 - record.clock_in_time < 2 ^ 48)
    (htie : (t1 - record.clock_in_time) % 36000 ≠ 18000) :
    ∃ updated, (clockOut s userId notes now t1 dbNow).1 = ClockOutResponse.clockedOut updated
      (toDouble
        ((roundHundredths (((t1 - record.clock_in_time : ℤ) : ℚ) / 3600000) : ℚ) / 100)) := by
  unfold clockOut
  rw [hsel]
  simp only [roundTwoPlaces_hoursBetween _ _ h01 hb htie]
  exact ⟨_, rfl⟩

/-- C1, the example of the claim: clock-in at 09:00:00 and clock-out at 17:30:00 of the same day
gives `totalHours = 8.5`. -/
theorem clockOut_totalHours_witness :
    toDouble ((roundHundredths (((63000000 - sessionAtNine.clock_in_time : ℤ) : ℚ) / 3600000) : ℚ)
      / 100) = 17 / 2 ∧
    ∃ updated, (clockOut storeAtNine 1 none 63000000 63000000 63000000).1 =
      ClockOutResponse.clockedOut updated
        (toDouble ((roundHundredths (((63000000 - sessionAtNine.clock_in_time : ℤ) : ℚ)
          / 3600000) : ℚ) / 100)) :=
  ⟨by decide!,
    clockOut_totalHours storeAtNine 1 none 63000000 63000000 63000000 sessionAtNine []
      (by decide!) (by decide!) (by decide!) (by decide!)⟩

/-- C1, as stated, fails: a session of 1 h 0 min 18 s (3618000 ms, exactly 1.005 h) is answered
with `totalHours = 1`, while 1.005 rounded to two decimal places is 1.01. -/
theorem clockOut_totalHours_tie :
    (clockOut storeOneSession 1 none 3618000 3618000 3618000).1 =
      ClockOutResponse.clockedOut
        (some { id := 1, user_id := 1, work_date := 0, clock_in_time := 0,
                clock_out_time := some 3618000, notes := none, status := "active",
                total_hours := none, updated_at := 3618000 }) 1 ∧
    roundHundredths (((3618000 - 0 : ℤ) : ℚ) / 3600000) = 101 ∧
    toDouble ((101 : ℚ) / 100) ≠ 1 := by
  decide!

/-! ### Session invariant -/

theorem clockIn_of_active (s : Store) (userId : Nat) (notes : Option String) (now dbNow : Int)
    (existing : Attendance) (rest : List Attendance)
    (hsel : selectByStatus s userId (workDateOf now) "active" = existing :: rest) :
    clockIn s userId notes now dbNow = (ClockInResponse.alreadyClockedIn existing, s) := by
  unfold clockIn
  simp only
  rw [hsel]

theorem clockIn_of_none (s : Store) (userId : Nat) (notes : Option String) (now dbNow : Int)
    (hsel : selectByStatus s userId (workDateOf now) "active" = []) :
    clockIn s userId notes now dbNow =
      (ClockInResponse.created
        (insertAttendance s userId (workDateOf now) (orNull notes) "active" dbNow).1
        (selectUserProfile
          (insertAttendance s userId (workDateOf now) (orNull notes) "active" dbNow).2 userId),
        (insertAttendance s userId (workDateOf now) (orNull notes) "active" dbNow).2) := by
  unfold clockIn
  simp only
  rw [hsel]

theorem clockOut_of_none (s : Store) (userId : Nat) (notes : Option String)
    (now clockOutTime dbNow : Int)
    (hsel : selectByStatus s userId (workDateOf now) "active" = []) :
    clockOut s userId notes now clockOutTime dbNow = (ClockOutResponse.noActiveClockIn, s) := by
  unfold clockOut
  rw [hsel]

theorem clockOut_of_active (s : Store) (userId : Nat) (notes : Option String)
    (now clockOutTime dbNow : Int) (record : Attendance) (rest : List Attendance)
    (hsel : selectByStatus s userId (workDateOf now) "active" = record :: rest) :
    clockOut s userId notes now clockOutTime dbNow =
      (ClockOutResponse.clockedOut
        ((updateClockOut s clockOutTime (orNull notes) record.id dbNow).attendance.filter
          (fun a => a.id == record.id)).head?
        (roundTwoPlaces (hoursBetween record.clock_in_time clockOutTime)),
        updateClockOut s clockOutTime (orNull notes) record.id dbNow) := by
  unfold clockOut
  rw [hsel]

theorem selectByStatus_updateClockOut (s : Store) (t : Int) (notes : Option String) (id : Nat)
    (dbNow : Int) (userId : Nat) (workDate : Int) (status : String) :
    (selectByStatus (updateClockOut s t notes id dbNow) userId workDate status).length =
      (selectByStatus s userId workDate status).length := by
  unfold selectByStatus updateClockOut
  simp only [List.filter_map, List.length_map]
  congr 1
  apply List.filter_congr
  intro a _
  simp only [Function.comp]
  split_ifs <;> rfl

theorem clockIn_atMostOneActive (s : Store) (userId : Nat) (notes : Option String)
    (now dbNow : Int) (h : AtMostOneActive s) :
    AtMostOneActive (clockIn s userId notes now dbNow).2 := by
  cases hsel : selectByStatus s userId (workDateOf now) "active" with
  | cons existing rest =>
    rw [clockIn_of_active s userId notes now dbNow existing rest hsel]
    exact h
  | nil =>
    rw [clockIn_of_none s userId notes now dbNow hsel]
    intro u d
    have hle := h u d
    unfold selectByStatus at hle hsel
    simp only [insertAttendance, selectByStatus, List.filter_append, List.length_append]
    by_cases hm : (userId == u && workDateOf now == d && "active" == "active") = true
    · have hu : userId = u := by
        simp at hm
        exact hm.1
      have hd : workDateOf now = d := by
        simp at hm
        exact hm.2
      subst hu hd
      rw [hsel]
      simp only [List.filter_cons, List.filter_nil, List.length_nil, zero_add]
      split_ifs
      · simp
    · simp only [List.filter_cons, List.filter_nil]
      rw [if_neg hm]
      simpa using hle

theorem clockOut_atMostOneActive (s : Store) (userId : Nat) (notes : Option String)
    (now clockOutTime dbNow : Int) (h : AtMostOneActive s) :
    AtMostOneActive (clockOut s userId notes now clockOutTime dbNow).2 := by
  cases hsel : selectByStatus s userId (workDateOf now) "active" with
  | nil =>
    rw [clockOut_of_none s userId notes now clockOutTime dbNow hsel]
    exact h
  | cons existing rest =>
    rw [clockOut_of_active s userId notes now clockOutTime dbNow existing rest hsel]
    intro u d
    simp only
    rw [selectByStatus_updateClockOut]
    exact h u d

/-- C2: from a store with at most one `active` row for every user and work date, every sequence
of `clockIn` and `clockOut` calls executed one after the other leads to a store with at most
one `active` row for every user and work date. -/
theorem applyOps_atMostOneActive (s : Store) (ops : List SessionOp) (h : AtMostOneActive s) :
    AtMostOneActive (applyOps s ops) := by
  unfold applyOps
  induction ops generalizing s with
  | nil => simpa using h
  | cons op ops ih =>
    rw [List.foldl_cons]
    apply ih
    cases op with
    | clockIn userId notes now dbNow => exact clockIn_atMostOneActive s userId notes now dbNow h
    | clockOut userId notes now clockOutTime dbNow =>
      exact clockOut_atMostOneActive s userId notes now clockOutTime dbNow h

theorem storeOneSession_atMostOneActive : AtMostOneActive storeOneSession := by
  intro u d
  simp only [selectByStatus, storeOneSession, List.filter_cons, List.filter_nil]
  split_ifs <;> simp

/-- C2, on an example: a store with one open session, then a second clock-in of the same user,
a clock-in of another user, a clock-out and a clock-in on the next day. -/
theorem applyOps_atMostOneActive_witness :
    AtMostOneActive storeOneSession ∧
    AtMostOneActive (applyOps storeOneSession
      [SessionOp.clockIn 1 none 1000 1000, SessionOp.clockIn 2 (some "late") 2000 2000,
       SessionOp.clockOut 1 none 3000 3000 3000, SessionOp.clockIn 1 none 86400000 86400000]) :=
  ⟨storeOneSession_atMostOneActive,
    applyOps_atMostOneActive storeOneSession _ storeOneSession_atMostOneActive⟩

/-! ### Rejected session requests -/

theorem mem_selectByStatus (s : Store) (userId : Nat) (workDate : Int) (status : String)
    (a : Attendance) :
    a ∈ selectByStatus s userId workDate status ↔
      a ∈ s.attendance ∧ a.user_id = userId ∧ a.work_date = workDate ∧ a.status = status := by
  unfold selectByStatus
  simp [List.mem_filter, and_assoc]

/-- C3: when the user has a row of status `active` for today's work date, `clockIn` answers
with the already-clocked-in conflict, its `data` is such a row of the store (the only one when
the store has at most one per user and day), and the store is left as it was. -/
theorem clockIn_conflict (s : Store) (userId : Nat) (notes : Option String) (now dbNow : Int)
    (h : ∃ a ∈ s.attendance,
      a.user_id = userId ∧ a.work_date = workDateOf now ∧ a.status = "active") :
    ∃ existing, clockIn s userId notes now dbNow = (ClockInResponse.alreadyClockedIn existing, s) ∧
      existing ∈ s.attendance ∧ existing.user_id = userId ∧
      existing.work_date = workDateOf now ∧ existing.status = "active" ∧
      (AtMostOneActive s → ∀ a ∈ s.attendance,
        a.user_id = userId → a.work_date = workDateOf now → a.status = "active" →
          a = existing) := by
  obtain ⟨a, ha, hu, hd, hs⟩ := h
  have hmem : a ∈ selectByStatus s userId (workDateOf now) "active" :=
    (mem_selectByStatus s userId (workDateOf now) "active" a).2 ⟨ha, hu, hd, hs⟩
  cases hsel : selectByStatus s userId (workDateOf now) "active" with
  | nil =>
    rw [hsel] at hmem
    exact absurd hmem (List.not_mem_nil a)
  | cons existing rest =>
    have hex : existing ∈ selectByStatus s userId (workDateOf now) "active" := by
      rw [hsel]
      exact List.mem_cons_self _ _
    obtain ⟨e1, e2, e3, e4⟩ := (mem_selectByStatus s userId (workDateOf now) "active" existing).1 hex
    refine ⟨existing, clockIn_of_active s userId notes now dbNow existing rest hsel, e1, e2, e3,
      e4, ?_⟩
    intro hone b hb hbu hbd hbs
    have hlen := hone userId (workDateOf now)
    have hbmem : b ∈ selectByStatus s userId (workDateOf now) "active" :=
      (mem_selectByStatus s userId (workDateOf now) "active" b).2 ⟨hb, hbu, hbd, hbs⟩
    rw [hsel] at hlen hbmem
    have hrest : rest = [] := by
      cases rest with
      | nil => rfl
      | cons r rs => simp at hlen
    rw [hrest] at hbmem
    simpa using hbmem

/-- C3, on an example: user 1 has an open session on day 0 and clocks in again that day. -/
theorem clockIn_conflict_witness :
    (∃ a ∈ storeOneSession.attendance,
      a.user_id = 1 ∧ a.work_date = workDateOf 5000 ∧ a.status = "active") ∧
    ∃ existing, clockIn storeOneSession 1 (some "again") 5000 5000 =
        (ClockInResponse.alreadyClockedIn existing, storeOneSession) ∧
      existing ∈ storeOneSession.attendance ∧ existing.user_id = 1 ∧
      existing.work_date = workDateOf 5000 ∧ existing.status = "active" ∧
      (AtMostOneActive storeOneSession → ∀ a ∈ storeOneSession.attendance,
        a.user_id = 1 → a.work_date = workDateOf 5000 → a.status = "active" → a = existing) :=
  ⟨⟨_, List.mem_cons_self _ _, by decide, by decide, by decide⟩,
    clockIn_conflict storeOneSession 1 (some "again") 5000 5000
      ⟨_, List.mem_cons_self _ _, by decide, by decide, by decide⟩⟩

/-- C4: when the user has no row of status `active` for today's work date, `clockOut` answers
with the no-active-clock-in failure and the store after the call is the store before it. -/
theorem clockOut_noActive (s : Store) (userId : Nat) (notes : Option String)
    (now clockOutTime dbNow : Int)
    (h : ∀ a ∈ s.attendance,
      ¬ (a.user_id = userId ∧ a.work_date = workDateOf now ∧ a.status = "active")) :
    clockOut s userId notes now clockOutTime dbNow = (ClockOutResponse.noActiveClockIn, s) := by
  apply clockOut_of_none
  apply List.eq_nil_iff_forall_not_mem.2
  intro a ha
  obtain ⟨h1, h2⟩ := (mem_selectByStatus s userId (workDateOf now) "active" a).1 ha
  exact h a h1 h2

/-- C4, on an example: user 2 has no session at all, and user 1 has none on day 1. -/
theorem clockOut_noActive_witness :
    (∀ a ∈ storeOneSession.attendance,
      ¬ (a.user_id = 2 ∧ a.work_date = workDateOf 5000 ∧ a.status = "active")) ∧
    clockOut storeOneSession 2 (some "bye") 5000 5000 5000 =
      (ClockOutResponse.noActiveClockIn, storeOneSession) :=
  ⟨by decide, clockOut_noActive storeOneSession 2 (some "bye") 5000 5000 5000 (by decide)⟩

/-! ### Admin-only operations -/

/-- C5: for a caller whose role is not `admin`, each of `getAllUsersAttendance`,
`generateAttendanceReport` and `updateAttendanceRecord` answers with the forbidden result, which
carries no data and is the same whatever the store holds, and `updateAttendanceRecord` leaves
the store as it was. -/
theorem nonAdmin_forbidden (caller : Caller) (h : caller.role ≠ some "admin") (s : Store)
    (startDate endDate : Option Int) (userId : Option Nat) (page limit : Option Int)
    (pgAvg : List PgNumeric → PgNumeric) (id : Nat) (patch : AttendancePatch) (dbNow : Int) :
    getAllUsersAttendance s caller startDate endDate userId page limit =
      HistoryResponse.forbidden ∧
    generateAttendanceReport pgAvg s caller startDate endDate userId =
      ReportResponse.forbidden ∧
    hourFigures (generateAttendanceReport pgAvg s caller startDate endDate userId) = [] ∧
    updateAttendanceRecord s caller id patch dbNow = (UpdateResponse.forbidden, s) := by
  have h1 : generateAttendanceReport pgAvg s caller startDate endDate userId =
      ReportResponse.forbidden := by
    unfold generateAttendanceReport
    rw [if_pos h]
  refine ⟨?_, h1, ?_, ?_⟩
  · unfold getAllUsersAttendance
    rw [if_pos h]
  · rw [h1]
    rfl
  · unfold updateAttendanceRecord
    rw [if_pos h]

/-- C5, on an example: a caller of role `user`. -/
theorem nonAdmin_forbidden_witness :
    (({ id := 1, role := some "user" } : Caller).role ≠ some "admin") ∧
    getAllUsersAttendance storeOneSession { id := 1, role := some "user" } none none none
      (some 1) (some 20) = HistoryResponse.forbidden ∧
    generateAttendanceReport (fun _ => { unscaled := 0, scale := 0 }) storeOneSession
      { id := 1, role := some "user" } none none none = ReportResponse.forbidden ∧
    hourFigures (generateAttendanceReport (fun _ => { unscaled := 0, scale := 0 })
      storeOneSession { id := 1, role := some "user" } none none none) = [] ∧
    updateAttendanceRecord storeOneSession { id := 1, role := some "user" } 1
      { clock_in_time := none, clock_out_time := some 7, notes := none, status := none } 9 =
        (UpdateResponse.forbidden, storeOneSession) :=
  ⟨by decide,
    nonAdmin_forbidden { id := 1, role := some "user" } (by decide) storeOneSession none none
      none (some 1) (some 20) (fun _ => { unscaled := 0, scale := 0 }) 1
      { clock_in_time := none, clock_out_time := some 7, notes := none, status := none } 9⟩

/-! ### Pagination -/

theorem toNumber_natCast (n : Nat) (hn : n < 2 ^ 53) : toNumber (n : ℤ) = (n : ℚ) := by
  unfold toNumber
  have := toDouble_intCast (n : ℤ) (by rw [abs_of_nonneg (by omega)]; exact_mod_cast hn)
  simpa using this

theorem toDouble_ge (x : ℚ) (hx : 0 ≤ x) : x * (7 / 8) ≤ toDouble x := by
  have h := toDouble_sub_abs_le x
  rw [abs_of_nonneg hx] at h
  obtain ⟨h1, _⟩ := abs_le.1 h
  norm_num at h1
  linarith

theorem toDouble_le (x : ℚ) (hx : 0 ≤ x) : toDouble x ≤ x * (9 / 8) := by
  have h := toDouble_sub_abs_le x
  rw [abs_of_nonneg hx] at h
  obtain ⟨_, h2⟩ := abs_le.1 h
  norm_num at h2
  linarith

theorem toDouble_zero : toDouble 0 = 0 := by
  unfold toDouble
  rw [if_pos rfl]

theorem pageOffset_exact (p size : Nat) (hp : 1 ≤ p) (ho : (p - 1) * size < 2 ^ 52) :
    jsMul (jsSub (toNumber (p : ℤ)) 1) (toNumber (size : ℤ)) = (((p - 1) * size : ℕ) : ℚ) := by
  rcases Nat.eq_or_lt_of_le hp with h1 | h2
  · rw [← h1]
    have e1 : toNumber ((1 : ℕ) : ℤ) = ((1 : ℕ) : ℚ) := toNumber_natCast 1 (by norm_num)
    rw [e1]
    unfold jsMul jsSub
    simp [toDouble_zero]
  · by_cases hs0 : size = 0
    · rw [hs0]
      have e0 : toNumber ((0 : ℕ) : ℤ) = ((0 : ℕ) : ℚ) := toNumber_natCast 0 (by norm_num)
      rw [e0]
      unfold jsMul
      simp [toDouble_zero]
    · have hp1 : 1 ≤ p - 1 := by omega
      have hs1 : 1 ≤ size := by omega
      have hsle : size ≤ (p - 1) * size := Nat.le_mul_of_pos_left size (by omega)
      have hple : p - 1 ≤ (p - 1) * size := Nat.le_mul_of_pos_right (p - 1) (by omega)
      rw [toNumber_natCast p (by omega), toNumber_natCast size (by omega)]
      unfold jsMul jsSub
      have h1 : ((p : ℚ) - 1) = (((p - 1 : ℕ) : ℤ) : ℚ) := by
        push_cast [Nat.cast_sub hp]
        ring
      rw [h1, toDouble_intCast _ (by rw [abs_of_nonneg (by omega)]; omega)]
      have h2 : ((((p - 1 : ℕ) : ℤ) : ℚ) * (size : ℚ)) = ((((p - 1) * size : ℕ) : ℤ) : ℚ) := by
        push_cast
        ring
      rw [h2, toDouble_intCast _ (by rw [abs_of_nonneg (by omega)]; omega)]
      simp

theorem pageOffset_large (p size : Nat) (ho : 2 ^ 52 ≤ (p - 1) * size) :
    (2 : ℚ) ^ 51 ≤ jsMul (jsSub (toNumber (p : ℤ)) 1) (toNumber (size : ℤ)) := by
  have hp2 : 2 ≤ p := by
    by_contra hc
    have : p - 1 = 0 := by omega
    rw [this, Nat.zero_mul] at ho
    exact absurd ho (by norm_num)
  have hpq : (2 : ℚ) ≤ p := by exact_mod_cast hp2
  have hsq : (0 : ℚ) ≤ size := Nat.cast_nonneg size
  have hoq : (2 : ℚ) ^ 52 ≤ ((p : ℚ) - 1) * size := by
    have : ((2 ^ 52 : ℕ) : ℚ) ≤ (((p - 1) * size : ℕ) : ℚ) := by exact_mod_cast ho
    push_cast [Nat.cast_sub (show 1 ≤ p by omega)] at this
    exact this
  unfold jsMul jsSub toNumber
  push_cast
  have hP := toDouble_ge (p : ℚ) (by linarith)
  have hP1 : ((p : ℚ) - 1) * (3 / 4) ≤ toDouble (p : ℚ) - 1 := by linarith
  have hP0 : (0 : ℚ) ≤ toDouble (p : ℚ) - 1 := by linarith
  have hQ := toDouble_ge (toDouble (p : ℚ) - 1) hP0
  have hQ1 : ((p : ℚ) - 1) * (21 / 32) ≤ toDouble (toDouble (p : ℚ) - 1) := by linarith
  have hQ0 : (0 : ℚ) ≤ toDouble (toDouble (p : ℚ) - 1) := by linarith
  have hS := toDouble_ge (size : ℚ) hsq
  have hS0 : (0 : ℚ) ≤ toDouble (size : ℚ) := by linarith
  have hprod : ((p : ℚ) - 1) * (21 / 32) * ((size : ℚ) * (7 / 8)) ≤
      toDouble (toDouble (p : ℚ) - 1) * toDouble (size : ℚ) :=
    mul_le_mul hQ1 hS (by positivity) hQ0
  have hO := toDouble_ge (toDouble (toDouble (p : ℚ) - 1) * toDouble (size : ℚ))
    (mul_nonneg hQ0 hS0)
  have e : ((p : ℚ) - 1) * (21 / 32) * ((size : ℚ) * (7 / 8)) * (7 / 8) =
      ((p : ℚ) - 1) * size * (1029 / 2048) := by ring
  nlinarith

theorem pageOffset_nonneg (p size : Nat) (hp : 1 ≤ p) :
    (0 : ℚ) ≤ jsMul (jsSub (toNumber (p : ℤ)) 1) (toNumber (size : ℤ)) := by
  by_cases ho : (p - 1) * size < 2 ^ 52
  · rw [pageOffset_exact p size hp ho]
    exact Nat.cast_nonneg _
  · exact le_trans (by positivity) (pageOffset_large p size (by omega))

theorem drop_pageOffset {α : Type} (l : List α) (hl : l.length < 2 ^ 51) (p size : Nat)
    (hp : 1 ≤ p) :
    l.drop ⌊jsMul (jsSub (toNumber (p : ℤ)) 1) (toNumber (size : ℤ))⌋.toNat =
      l.drop ((p - 1) * size) := by
  by_cases ho : (p - 1) * size < 2 ^ 52
  · rw [pageOffset_exact p size hp ho, Int.floor_natCast, Int.toNat_ofNat]
  · have hbig := pageOffset_large p size (by omega)
    have hfl : (2 : ℤ) ^ 51 ≤ ⌊jsMul (jsSub (toNumber (p : ℤ)) 1) (toNumber (size : ℤ))⌋ := by
      rw [Int.le_floor]
      push_cast
      exact hbig
    rw [List.drop_eq_nil_of_le (by omega), List.drop_eq_nil_of_le (by omega)]

theorem ceil_toDouble_div (n size : Nat) (hsize : 1 ≤ size) (hn : n < 2 ^ 53) :
    ⌈toDouble ((n : ℚ) / (size : ℚ))⌉ = ⌈(n : ℚ) / (size : ℚ)⌉ := by
  set k := ⌈(n : ℚ) / (size : ℚ)⌉ with hk
  have hs0 : (0 : ℚ) < size := by exact_mod_cast hsize
  have hx0 : (0 : ℚ) ≤ (n : ℚ) / size := by positivity
  have hc1 : ((n : ℚ) / size) ≤ k := Int.le_ceil _
  have hc2 : (k : ℚ) - 1 < (n : ℚ) / size := by
    have := Int.ceil_lt_add_one ((n : ℚ) / size)
    linarith
  have z1 : (n : ℤ) ≤ size * k := by
    have : ((n : ℤ) : ℚ) ≤ ((size * k : ℤ) : ℚ) := by
      push_cast
      rw [div_le_iff₀ hs0] at hc1
      linarith
    exact_mod_cast this
  have z2 : (size : ℤ) * (k - 1) < n := by
    have : (((size : ℤ) * (k - 1) : ℤ) : ℚ) < ((n : ℤ) : ℚ) := by
      push_cast
      rw [lt_div_iff₀ hs0] at hc2
      linarith
    exact_mod_cast this
  by_cases heq : (n : ℤ) = size * k
  · have hxk : (n : ℚ) / size = (k : ℚ) := by
      rw [div_eq_iff hs0.ne']
      have : ((n : ℤ) : ℚ) = ((size * k : ℤ) : ℚ) := by rw [heq]
      push_cast at this
      linarith
    have hk0 : 0 ≤ k := by
      have : (0 : ℚ) ≤ k := by rw [← hxk]; exact hx0
      exact_mod_cast this
    have hkn : k ≤ n := by
      have hs1 : (1 : ℤ) ≤ size := by exact_mod_cast hsize
      nlinarith
    rw [hxk, toDouble_intCast k (by rw [abs_of_nonneg hk0]; omega)]
    simp
  · have z3 : (n : ℤ) + 1 ≤ size * k := by omega
    have q3 : (n : ℚ) + 1 ≤ size * k := by exact_mod_cast z3
    have q2 : (size : ℚ) * (k - 1) + 1 ≤ n := by
      exact_mod_cast (show (size : ℤ) * (k - 1) + 1 ≤ n by omega)
    have herr := toDouble_sub_abs_le ((n : ℚ) / size)
    rw [abs_of_nonneg hx0] at herr
    obtain ⟨e1, e2⟩ := abs_le.1 herr
    have hn53 : (n : ℚ) < 2 ^ 53 := by exact_mod_cast hn
    have hsmall : (n : ℚ) / size / 2 ^ 53 < 1 / size := by
      rw [div_div, div_lt_div_iff₀ (by positivity) hs0]
      nlinarith
    have hu : (n : ℚ) / size + 1 / size ≤ k := by
      rw [← add_div, div_le_iff₀ hs0]
      linarith
    have hl : (k : ℚ) - 1 ≤ (n : ℚ) / size - 1 / size := by
      rw [← sub_div, le_div_iff₀ hs0]
      linarith
    rw [Int.ceil_eq_iff]
    constructor <;> linarith

theorem ceil_jsDiv_count (n size : Nat) (hsize : 1 ≤ size) (hn : n < 2 ^ 51) :
    ⌈jsDiv (toNumber (n : ℤ)) (toNumber (size : ℤ))⌉ = ⌈(n : ℚ) / (size : ℚ)⌉ := by
  rw [toNumber_natCast n (by omega)]
  unfold jsDiv
  by_cases hs : size < 2 ^ 53
  · rw [toNumber_natCast size hs]
    exact ceil_toDouble_div n size hsize (by omega)
  · have hsq : (2 : ℚ) ^ 53 ≤ size := by exact_mod_cast (show 2 ^ 53 ≤ size by omega)
    have hnq : (n : ℚ) < 2 ^ 51 := by exact_mod_cast hn
    have hS := toDouble_ge (size : ℚ) (by positivity)
    have hSpos : (0 : ℚ) < toNumber (size : ℤ) := by
      unfold toNumber
      push_cast
      linarith
    have hSbig : (2 : ℚ) ^ 52 ≤ toNumber (size : ℤ) := by
      unfold toNumber
      push_cast
      linarith
    rcases Nat.eq_zero_or_pos n with h0 | hpos
    · rw [h0]
      simp [toDouble_zero]
    · have hn1 : (1 : ℚ) ≤ n := by exact_mod_cast hpos
      have hy0 : (0 : ℚ) < (n : ℚ) / toNumber (size : ℤ) := by positivity
      have hy1 : (n : ℚ) / toNumber (size : ℤ) ≤ 1 / 2 := by
        rw [div_le_iff₀ hSpos]
        linarith
      have hlow := toDouble_ge _ hy0.le
      have hup := toDouble_le _ hy0.le
      have e1 : ⌈toDouble ((n : ℚ) / toNumber (size : ℤ))⌉ = 1 := by
        rw [Int.ceil_eq_iff]
        push_cast
        constructor <;> linarith
      have hz0 : (0 : ℚ) < (n : ℚ) / size := by positivity
      have hz1 : (n : ℚ) / size ≤ 1 := by
        rw [div_le_iff₀ (by positivity)]
        linarith
      have e2 : ⌈(n : ℚ) / (size : ℚ)⌉ = 1 := by
        rw [Int.ceil_eq_iff]
        push_cast
        constructor <;> linarith
      rw [e1, e2]

theorem length_filter_joinUsers (users : List User) (p : Attendance → Bool) :
    ∀ l : List Attendance,
      (∀ a ∈ l, (users.filter (fun u => u.id == a.user_id)).length = 1) →
      ((l.flatMap (fun a => (users.filter (fun u => u.id == a.user_id)).map
          (fun u => (a, u)))).filter (fun r => p r.1)).length = (l.filter p).length := by
  intro l
  induction l with
  | nil => intro _; rfl
  | cons a l ih =>
    intro h
    have ha := h a (List.mem_cons_self _ _)
    have ih2 := ih (fun b hb => h b (List.mem_cons_of_mem _ hb))
    obtain ⟨u, hu⟩ := List.length_eq_one.1 ha
    rw [List.flatMap_cons, hu, List.filter_append, List.length_append, ih2]
    simp only [List.map_cons, List.map_nil, List.filter_cons, List.filter_nil]
    split_ifs
    · simp
      omega
    · simp

theorem length_userHistory (s : Store) (userId : Nat) (startDate endDate : Option Int)
    (hri : ReferentialIntegrity s) :
    (userHistory s userId startDate endDate).length =
      userHistoryCount s userId startDate endDate := by
  unfold userHistory userHistoryCount joinUsers
  rw [List.length_insertionSort]
  exact length_filter_joinUsers s.users
    (fun a => a.user_id == userId && inDateRange startDate endDate a.work_date) s.attendance hri

theorem map_fst_joinUsers (users : List User) :
    ∀ l : List Attendance,
      (∀ a ∈ l, (users.filter (fun u => u.id == a.user_id)).length = 1) →
      (l.flatMap (fun a => (users.filter (fun u => u.id == a.user_id)).map
          (fun u => (a, u)))).map Prod.fst = l := by
  intro l
  induction l with
  | nil => intro _; rfl
  | cons a l ih =>
    intro h
    obtain ⟨u, hu⟩ := List.length_eq_one.1 (h a (List.mem_cons_self _ _))
    rw [List.flatMap_cons, List.map_append, ih (fun b hb => h b (List.mem_cons_of_mem _ hb)), hu]
    rfl

theorem mem_joinUsers (s : Store) (r : Attendance × User) (h : r ∈ joinUsers s) :
    r.2 ∈ s.users ∧ r.2.id = r.1.user_id := by
  unfold joinUsers at h
  rw [List.mem_flatMap] at h
  obtain ⟨a, _, hr⟩ := h
  rw [List.mem_map] at hr
  obtain ⟨u, hu, hau⟩ := hr
  rw [List.mem_filter] at hu
  rw [← hau]
  exact ⟨hu.1, by simpa using hu.2⟩

theorem historyFilter_eq (userId : Nat) (startDate endDate : Option Int) (a : Attendance) :
    (a.user_id == userId && inDateRange startDate endDate a.work_date) =
      decide (a.user_id = userId ∧ (∀ d ∈ startDate, d ≤ a.work_date) ∧
        (∀ d ∈ endDate, a.work_date ≤ d)) := by
  cases startDate <;> cases endDate <;> simp [inDateRange, Bool.and_assoc] <;>
    by_cases h : a.user_id = userId <;> simp [h]

theorem newestFirst_total (x y : Attendance × User) : newestFirst x y ∨ newestFirst y x := by
  unfold newestFirst
  omega

theorem newestFirst_trans (x y z : Attendance × User) (h1 : newestFirst x y)
    (h2 : newestFirst y z) : newestFirst x z := by
  unfold newestFirst at *
  omega

theorem userHistory_pairwise (s : Store) (userId : Nat) (startDate endDate : Option Int) :
    ((userHistory s userId startDate endDate).map Prod.fst).Pairwise
      (fun a b => b.work_date < a.work_date ∨
        (b.work_date = a.work_date ∧ b.clock_in_time ≤ a.clock_in_time)) := by
  rw [List.pairwise_map]
  haveI : IsTotal (Attendance × User) newestFirst := ⟨newestFirst_total⟩
  haveI : IsTrans (Attendance × User) newestFirst := ⟨newestFirst_trans⟩
  exact List.sorted_insertionSort newestFirst _

theorem userHistory_perm (s : Store) (userId : Nat) (startDate endDate : Option Int)
    (hri : ReferentialIntegrity s) :
    ((userHistory s userId startDate endDate).map Prod.fst).Perm
      (s.attendance.filter (fun a => decide (a.user_id = userId ∧
        (∀ d ∈ startDate, d ≤ a.work_date) ∧ (∀ d ∈ endDate, a.work_date ≤ d)))) := by
  unfold userHistory
  refine ((List.perm_insertionSort newestFirst _).map Prod.fst).trans ?_
  have hmap : (joinUsers s).map Prod.fst = s.attendance :=
    map_fst_joinUsers s.users s.attendance hri
  have hf : ((joinUsers s).filter (fun r => r.1.user_id == userId &&
      inDateRange startDate endDate r.1.work_date)).map Prod.fst =
      ((joinUsers s).map Prod.fst).filter (fun a => a.user_id == userId &&
        inDateRange startDate endDate a.work_date) := by
    rw [List.filter_map]
    rfl
  rw [hf, hmap]
  have hc : s.attendance.filter (fun a => a.user_id == userId &&
      inDateRange startDate endDate a.work_date) =
      s.attendance.filter (fun a => decide (a.user_id = userId ∧
        (∀ d ∈ startDate, d ≤ a.work_date) ∧ (∀ d ∈ endDate, a.work_date ≤ d))) := by
    apply List.filter_congr
    intro a _
    exact historyFilter_eq userId startDate endDate a
  rw [hc]

theorem userHistory_mem (s : Store) (userId : Nat) (startDate endDate : Option Int)
    (r : Attendance × User) (h : r ∈ userHistory s userId startDate endDate) :
    r ∈ joinUsers s := by
  unfold userHistory at h
  have := (List.perm_insertionSort newestFirst _).subset h
  exact (List.mem_filter.1 this).1

/-- C6, as amended: on a store of fewer than `2 ^ 51` attendance rows where every attendance row
references exactly one user, for a page `p ≥ 1` and a page size `1 ≤ size < 2 ^ 63` whose
computed offset is below `2 ^ 63` (the store's integer range), `getUserAttendance` succeeds;
the matching records (those of the user, within the optional date bounds) ordered by work date
descending, then clock-in descending, form a list `ordered`, and the response carries the
records at positions `(p - 1) * size` up to `(p - 1) * size + size` of it, each with the name
and email of its user: `min size (n - (p - 1) * size)` rows for `n` matching records, with
`totalRecords = n` and `totalPages = ⌈n / size⌉`; for `n = 25`, `size = 10`, `p = 3` these are
5 rows and 3 pages. -/
theorem getUserAttendance_page (s : Store) (userId : Nat) (startDate endDate : Option Int)
    (p size : Nat) (hp : 1 ≤ p) (hsize : 1 ≤ size) (hlimit : size < 2 ^ 63)
    (hoffset : jsMul (jsSub (toNumber (p : ℤ)) 1) (toNumber (size : ℤ)) < 2 ^ 63)
    (hstore : s.attendance.length < 2 ^ 51) (hri : ReferentialIntegrity s) :
    ∃ (ordered : List Attendance) (rows : List HistoryRow) (pagination : Pagination),
      ordered.Perm (s.attendance.filter (fun a => decide (a.user_id = userId ∧
        (∀ d ∈ startDate, d ≤ a.work_date) ∧ (∀ d ∈ endDate, a.work_date ≤ d)))) ∧
      ordered.Pairwise (fun a b => b.work_date < a.work_date ∨
        (b.work_date = a.work_date ∧ b.clock_in_time ≤ a.clock_in_time)) ∧
      getUserAttendance s userId startDate endDate (some (p : ℤ)) (some (size : ℤ)) =
        HistoryResponse.ok rows pagination ∧
      rows.map (fun row => row.attendance) = (ordered.drop ((p - 1) * size)).take size ∧
      (∀ row ∈ rows, ∃ u ∈ s.users,
        u.id = row.attendance.user_id ∧ row.name = u.name ∧ row.email = u.email) ∧
      rows.length = min size (ordered.length - (p - 1) * size) ∧
      pagination.totalRecords = ordered.length ∧
      pagination.totalPages = some ⌈(ordered.length : ℚ) / size⌉ ∧
      (ordered.length = 25 → size = 10 → p = 3 →
        rows.length = 5 ∧ pagination.totalPages = some 3) := by
  have hlen := length_userHistory s userId startDate endDate hri
  have hcount : userHistoryCount s userId startDate endDate < 2 ^ 51 := by
    unfold userHistoryCount
    exact lt_of_le_of_lt (List.length_filter_le _ _) hstore
  have hhist : (userHistory s userId startDate endDate).length < 2 ^ 51 := by
    rw [hlen]
    exact hcount
  have hordlen : ((userHistory s userId startDate endDate).map Prod.fst).length =
      userHistoryCount s userId startDate endDate := by
    rw [List.length_map, hlen]
  have hresp : getUserAttendance s userId startDate endDate (some (p : ℤ)) (some (size : ℤ)) =
      HistoryResponse.ok
        ((((userHistory s userId startDate endDate).drop ((p - 1) * size)).take size).map
          historyRow)
        (paginationOf p size (userHistoryCount s userId startDate endDate)) := by
    unfold getUserAttendance
    simp only [Option.getD_some]
    have hneg : ¬ ((size : ℤ) < 0 ∨ (2 : ℤ) ^ 63 ≤ (size : ℤ) ∨
        jsMul (jsSub (toNumber (p : ℤ)) 1) (toNumber (size : ℤ)) < 0 ∨
        (2 : ℚ) ^ 63 ≤ jsMul (jsSub (toNumber (p : ℤ)) 1) (toNumber (size : ℤ))) := by
      have h0 := pageOffset_nonneg p size hp
      push_neg
      exact ⟨by omega, by exact_mod_cast hlimit, h0, hoffset⟩
    rw [if_neg hneg]
    unfold limitOffset
    rw [drop_pageOffset _ hhist p size hp, Int.toNat_ofNat]
  have hrowsmap : ((((userHistory s userId startDate endDate).drop ((p - 1) * size)).take
      size).map historyRow).map (fun row => row.attendance) =
      (((userHistory s userId startDate endDate).map Prod.fst).drop ((p - 1) * size)).take
        size := by
    rw [List.map_map, ← List.map_drop, ← List.map_take]
    rfl
  have hrowslen : ((((userHistory s userId startDate endDate).drop ((p - 1) * size)).take
      size).map historyRow).length =
      min size (((userHistory s userId startDate endDate).map Prod.fst).length -
        (p - 1) * size) := by
    rw [List.length_map, List.length_take, List.length_drop, List.length_map]
  have hpages : (paginationOf p size (userHistoryCount s userId startDate endDate)).totalPages =
      some ⌈(((userHistory s userId startDate endDate).map Prod.fst).length : ℚ) / size⌉ := by
    unfold paginationOf
    simp only
    rw [if_neg (by omega), ceil_jsDiv_count _ size hsize hcount, hordlen]
  refine ⟨(userHistory s userId startDate endDate).map Prod.fst, _, _,
    userHistory_perm s userId startDate endDate hri,
    userHistory_pairwise s userId startDate endDate, hresp, hrowsmap, ?_, hrowslen, ?_,
    hpages, ?_⟩
  · intro row hrow
    rw [List.mem_map] at hrow
    obtain ⟨r, hr, hrr⟩ := hrow
    have hr2 := userHistory_mem s userId startDate endDate r
      (List.mem_of_mem_drop (List.mem_of_mem_take hr))
    obtain ⟨hu, hid⟩ := mem_joinUsers s r hr2
    rw [← hrr]
    exact ⟨r.2, hu, hid, rfl, rfl⟩
  · unfold paginationOf
    simp only
    rw [toNumber_natCast _ (by omega), hordlen]
  · intro h25 h10 h3
    rw [hrowslen, hpages, h25, h10, h3]
    refine ⟨by decide, ?_⟩
    congr 1
    rw [Int.ceil_eq_iff]
    norm_num

/-- C6, on the example of the claim: 25 records of one user, page 3 of size 10. -/
theorem getUserAttendance_page_witness :
    ∃ (rows : List HistoryRow) (pagination : Pagination),
      getUserAttendance storeTwentyFive 1 none none (some 3) (some 10) =
        HistoryResponse.ok rows pagination ∧
      rows.length = 5 ∧ pagination.totalRecords = 25 ∧ pagination.totalPages = some 3 := by
  obtain ⟨ordered, rows, pagination, hperm, _, hresp, _, _, _, hrec, _, hex⟩ :=
    getUserAttendance_page storeTwentyFive 1 none none 3 10 (by decide) (by decide) (by decide)
      (by decide!) (by decide!) (by decide!)
  have hlen : ordered.length = 25 := by
    rw [hperm.length_eq]
    decide!
  obtain ⟨h5, h3⟩ := hex hlen rfl rfl
  refine ⟨rows, pagination, hresp, h5, ?_, h3⟩
  rw [hrec, hlen]
  norm_num

/-- C6, as stated, fails: a page size of `2 ^ 63`, and a page whose offset is `2 ^ 63`, are
answered with the server error, and for a user without a row in `users` the two matching
records are counted but none is returned. -/
theorem getUserAttendance_page_fails :
    getUserAttendance storeTwentyFive 1 none none (some 1) (some (2 ^ 63)) =
      HistoryResponse.serverError ∧
    getUserAttendance storeTwentyFive 1 none none (some (2 ^ 63 + 1)) (some 1) =
      HistoryResponse.serverError ∧
    getUserAttendance storeWithoutUser 1 none none (some 1) (some 10) =
      HistoryResponse.ok []
        { currentPage := 1, totalPages := some 1, totalRecords := 2, recordsPerPage := 10 } := by
  decide!

/-! ### Report statistics -/

theorem toDouble_abs_le (x : ℚ) : |toDouble x| ≤ |x| * (1 + 1 / 2 ^ 53) := by
  have h := toDouble_sub_abs_le x
  have h2 : |toDouble x| ≤ |toDouble x - x| + |x| := by
    have := abs_add (toDouble x - x) x
    simpa using this
  have e : |x| * (1 + 1 / 2 ^ 53) = |x| / 2 ^ 53 + |x| := by ring
  rw [e]
  linarith

theorem abs_exactTotalHours_le (rows : List ReportRow) :
    |exactTotalHours rows| ≤ absTotalHours rows := by
  unfold exactTotalHours absTotalHours
  induction rows with
  | nil => simp
  | cons r rs ih =>
    simp only [List.map_cons, List.sum_cons]
    exact (abs_add _ _).trans (by linarith)

theorem absTotalHours_nonneg (rows : List ReportRow) : 0 ≤ absTotalHours rows :=
  (abs_nonneg _).trans (abs_exactTotalHours_le rows)

theorem totalHoursAllUsers_eq (rows : List ReportRow) :
    (reportStats rows).totalHoursAllUsers =
      rows.foldl (fun sum user => jsAdd sum (parseFloat user.total_hours_worked)) 0 := by
  unfold reportStats
  cases rows <;> rfl

theorem one_add_eps_pow_ge (k : ℕ) : (1 : ℚ) + 1 / 2 ^ 53 ≤ (1 + 1 / 2 ^ 53) ^ (k + 1) := by
  have h1 : (1 : ℚ) ≤ 1 + 1 / 2 ^ 53 := by norm_num
  have h2 : (1 : ℚ) ≤ (1 + 1 / 2 ^ 53) ^ k := one_le_pow₀ h1
  calc (1 : ℚ) + 1 / 2 ^ 53 = 1 * (1 + 1 / 2 ^ 53) := (one_mul _).symm
    _ ≤ (1 + 1 / 2 ^ 53) ^ k * (1 + 1 / 2 ^ 53) := by gcongr
    _ = (1 + 1 / 2 ^ 53) ^ (k + 1) := (pow_succ _ _).symm

/-- The double-precision running sum of the rows' hours is within
`((1 + 2 ^ (-53)) ^ (n + 1) - 1) * Σ |hours|` of their exact sum. -/
theorem totalHours_error (rows : List ReportRow) :
    |(reportStats rows).totalHoursAllUsers - exactTotalHours rows| ≤
      ((1 + 1 / 2 ^ 53) ^ (rows.length + 1) - 1) * absTotalHours rows := by
  rw [totalHoursAllUsers_eq]
  induction rows using List.reverseRecOn with
  | nil => simp [exactTotalHours, absTotalHours]
  | append_singleton rows x ih =>
    rw [List.foldl_append]
    simp only [List.foldl_cons, List.foldl_nil, List.length_append, List.length_singleton]
    set F := rows.foldl (fun sum user => jsAdd sum (parseFloat user.total_hours_worked)) 0
    set v := x.total_hours_worked.value with hv
    have hS : exactTotalHours (rows ++ [x]) = exactTotalHours rows + v := by
      simp [exactTotalHours, hv]
    have hA : absTotalHours (rows ++ [x]) = absTotalHours rows + |v| := by
      simp [absTotalHours, hv]
    rw [hS, hA]
    set S := exactTotalHours rows
    set A := absTotalHours rows
    set G := (1 + 1 / 2 ^ 53 : ℚ) ^ (rows.length + 1) with hG
    have hG2 : (1 + 1 / 2 ^ 53 : ℚ) ^ (rows.length + 1 + 1) = G * (1 + 1 / 2 ^ 53) := by
      rw [hG, pow_succ]
    rw [hG2]
    have hGge : (1 : ℚ) + 1 / 2 ^ 53 ≤ G := one_add_eps_pow_ge rows.length
    have hA0 : 0 ≤ A := absTotalHours_nonneg rows
    have hSA : |S| ≤ A := abs_exactTotalHours_le rows
    have hw0 : 0 ≤ |v| := abs_nonneg v
    unfold jsAdd parseFloat
    rw [← hv]
    set p := toDouble v
    have hp1 : |p - v| ≤ |v| / 2 ^ 53 := toDouble_sub_abs_le v
    have hp2 : |p| ≤ |v| * (1 + 1 / 2 ^ 53) := toDouble_abs_le v
    have hd : |toDouble (F + p) - (F + p)| ≤ |F + p| / 2 ^ 53 := toDouble_sub_abs_le (F + p)
    have hF : |F| ≤ A + |F - S| := by
      have := abs_add (F - S) S
      have e : F - S + S = F := by ring
      rw [e] at this
      linarith
    have hFp : |F + p| ≤ |F| + |p| := abs_add F p
    have htri : |toDouble (F + p) - (S + v)| ≤
        |toDouble (F + p) - (F + p)| + |F - S| + |p - v| := by
      have e : toDouble (F + p) - (S + v) = (toDouble (F + p) - (F + p)) + (F - S) + (p - v) := by
        ring
      rw [e]
      exact (abs_add _ _).trans (add_le_add (abs_add _ _) le_rfl)
    have hE0 : 0 ≤ |F - S| := abs_nonneg _
    have hprod1 : 0 ≤ (G - (1 + 1 / 2 ^ 53)) * |v| := mul_nonneg (by linarith) hw0
    have hbound : |F + p| ≤ A + (G - 1) * A + |v| * (1 + 1 / 2 ^ 53) := by linarith
    have hdiv : |F + p| / 2 ^ 53 ≤ (A + (G - 1) * A + |v| * (1 + 1 / 2 ^ 53)) / 2 ^ 53 := by
      gcongr
    have hfin : (A + (G - 1) * A + |v| * (1 + 1 / 2 ^ 53)) / 2 ^ 53 + (G - 1) * A + |v| / 2 ^ 53
        ≤ (G * (1 + 1 / 2 ^ 53) - 1) * (A + |v|) := by
      have e : (G * (1 + 1 / 2 ^ 53) - 1) * (A + |v|) -
          ((A + (G - 1) * A + |v| * (1 + 1 / 2 ^ 53)) / 2 ^ 53 + (G - 1) * A + |v| / 2 ^ 53) =
          (G - (1 + 1 / 2 ^ 53)) * |v| * (1 + 1 / 2 ^ 53) := by
        ring
      have : 0 ≤ (G - (1 + 1 / 2 ^ 53)) * |v| * (1 + 1 / 2 ^ 53) :=
        mul_nonneg hprod1 (by norm_num)
      linarith
    linarith

theorem averageHoursPerUser_eq (rows : List ReportRow) (h : rows ≠ []) :
    (reportStats rows).averageHoursPerUser =
      toDouble ((reportStats rows).totalHoursAllUsers / (rows.length : ℚ)) := by
  unfold reportStats
  cases rows with
  | nil => exact absurd rfl h
  | cons first rest => rfl

theorem abs_totalHoursAllUsers_le (rows : List ReportRow) :
    |(reportStats rows).totalHoursAllUsers| ≤
      (1 + 1 / 2 ^ 53) ^ (rows.length + 1) * absTotalHours rows := by
  have h1 := totalHours_error rows
  have h2 := abs_exactTotalHours_le rows
  have h3 : |(reportStats rows).totalHoursAllUsers| ≤
      |(reportStats rows).totalHoursAllUsers - exactTotalHours rows| + |exactTotalHours rows| := by
    have := abs_add ((reportStats rows).totalHoursAllUsers - exactTotalHours rows)
      (exactTotalHours rows)
    simpa using this
  linarith

/-- The double-precision average is within `((1 + 2 ^ (-53)) ^ (n + 2) - 1) * Σ |hours| / n` of
the exact sum divided by the number of rows. -/
theorem averageHours_error (rows : List ReportRow) (h : rows ≠ []) :
    |(reportStats rows).averageHoursPerUser - exactTotalHours rows / (rows.length : ℚ)| ≤
      ((1 + 1 / 2 ^ 53) ^ (rows.length + 2) - 1) * absTotalHours rows / (rows.length : ℚ) := by
  rw [averageHoursPerUser_eq rows h]
  have hn : (0 : ℚ) < rows.length := by
    have : 0 < rows.length := List.length_pos.2 h
    exact_mod_cast this
  set F := (reportStats rows).totalHoursAllUsers with hF
  set S := exactTotalHours rows
  set A := absTotalHours rows
  set G := (1 + 1 / 2 ^ 53 : ℚ) ^ (rows.length + 1) with hG
  have hG2 : (1 + 1 / 2 ^ 53 : ℚ) ^ (rows.length + 2) = G * (1 + 1 / 2 ^ 53) := by
    rw [hG, ← pow_succ]
  rw [hG2]
  have h1 : |F - S| ≤ (G - 1) * A := totalHours_error rows
  have h2 : |F| ≤ G * A := abs_totalHoursAllUsers_le rows
  have h3 : |toDouble (F / rows.length) - F / rows.length| ≤ |F / rows.length| / 2 ^ 53 :=
    toDouble_sub_abs_le _
  have h4 : |F / (rows.length : ℚ)| = |F| / rows.length := by
    rw [abs_div, abs_of_pos hn]
  have h5 : |F / (rows.length : ℚ) - S / rows.length| = |F - S| / rows.length := by
    rw [← sub_div, abs_div, abs_of_pos hn]
  have htri : |toDouble (F / rows.length) - S / rows.length| ≤
      |toDouble (F / rows.length) - F / rows.length| + |F / (rows.length : ℚ) - S / rows.length| := by
    have e : toDouble (F / rows.length) - S / rows.length =
        (toDouble (F / rows.length) - F / rows.length) + (F / (rows.length : ℚ) - S / rows.length) := by
      ring
    rw [e]
    exact abs_add _ _
  rw [h4] at h3
  rw [h5] at htri
  have h6 : |F| / rows.length / 2 ^ 53 + |F - S| / rows.length ≤
      (G * (1 + 1 / 2 ^ 53) - 1) * A / rows.length := by
    rw [div_right_comm, ← add_div]
    apply div_le_div_of_nonneg_right _ hn.le
    have : |F| / 2 ^ 53 ≤ G * A / 2 ^ 53 := by gcongr
    have e : (G * (1 + 1 / 2 ^ 53) - 1) * A = G * A / 2 ^ 53 + (G - 1) * A := by ring
    rw [e]
    linarith
  linarith

theorem one_add_eps_pow_le (m : ℕ) (hm : m ≤ 2 ^ 52) :
    (1 + 1 / 2 ^ 53 : ℚ) ^ m ≤ 1 + 2 * m / 2 ^ 53 := by
  induction m with
  | zero => simp
  | succ k ih =>
    have ihk := ih (by omega)
    have hk : (k : ℚ) ≤ 2 ^ 52 := by exact_mod_cast (show k ≤ 2 ^ 52 by omega)
    have hk0 : (0 : ℚ) ≤ k := Nat.cast_nonneg k
    rw [pow_succ]
    push_cast
    have h1 : (1 + 1 / 2 ^ 53 : ℚ) ^ k * (1 + 1 / 2 ^ 53) ≤
        (1 + 2 * k / 2 ^ 53) * (1 + 1 / 2 ^ 53) := by gcongr
    have h2 : (1 + 2 * (k : ℚ) / 2 ^ 53) * (1 + 1 / 2 ^ 53) ≤ 1 + 2 * (k + 1) / 2 ^ 53 := by
      have e : 1 + 2 * ((k : ℚ) + 1) / 2 ^ 53 - (1 + 2 * k / 2 ^ 53) * (1 + 1 / 2 ^ 53) =
          (2 ^ 52 - k) / 2 ^ 105 := by
        ring
      have : (0 : ℚ) ≤ (2 ^ 52 - k) / 2 ^ 105 := by
        apply div_nonneg _ (by positivity)
        linarith
      linarith
    exact h1.trans h2

theorem hundredths_of_twoDecimals (v : PgNumeric) (h0 : 0 ≤ v.unscaled) (h2 : v.scale ≤ 2) :
    0 ≤ v.value ∧ ∃ m : ℕ, v.value * 100 = m := by
  unfold PgNumeric.value
  obtain ⟨u, hu⟩ := Int.eq_ofNat_of_zero_le h0
  rw [hu]
  refine ⟨by positivity, ?_⟩
  have hs : v.scale = 0 ∨ v.scale = 1 ∨ v.scale = 2 := by omega
  rcases hs with hs | hs | hs <;> rw [hs]
  · exact ⟨u * 100, by push_cast; ring⟩
  · exact ⟨u * 10, by push_cast; ring⟩
  · exact ⟨u, by push_cast; ring⟩

theorem exactTotalHours_hundredths (rows : List ReportRow)
    (hdec : ∀ r ∈ rows, 0 ≤ r.total_hours_worked.unscaled ∧ r.total_hours_worked.scale ≤ 2) :
    absTotalHours rows = exactTotalHours rows ∧ ∃ m : ℕ, exactTotalHours rows * 100 = m := by
  induction rows with
  | nil => exact ⟨rfl, 0, by simp [exactTotalHours]⟩
  | cons r rs ih =>
    obtain ⟨ih1, m, hm⟩ := ih (fun q hq => hdec q (List.mem_cons_of_mem _ hq))
    obtain ⟨hr0, k, hk⟩ := hundredths_of_twoDecimals r.total_hours_worked
      (hdec r (List.mem_cons_self _ _)).1 (hdec r (List.mem_cons_self _ _)).2
    have e1 : exactTotalHours (r :: rs) = r.total_hours_worked.value + exactTotalHours rs := by
      simp [exactTotalHours]
    have e2 : absTotalHours (r :: rs) = |r.total_hours_worked.value| + absTotalHours rs := by
      simp [absTotalHours]
    refine ⟨by rw [e1, e2, ih1, abs_of_nonneg hr0], k + m, ?_⟩
    rw [e1, add_mul, hk, hm]
    push_cast
    ring

/-- For fewer than `2 ^ 20` rows of non-negative hours with at most two decimals and an exact
sum of at most `2 ^ 23`, the total is rendered by `toFixed(2)` as the exact sum. -/
theorem toFixed2_totalHours (rows : List ReportRow)
    (hdec : ∀ r ∈ rows, 0 ≤ r.total_hours_worked.unscaled ∧ r.total_hours_worked.scale ≤ 2)
    (hlen : rows.length < 2 ^ 20) (hsum : exactTotalHours rows ≤ 2 ^ 23) :
    toFixed2 (reportStats rows).totalHoursAllUsers = toFixed2 (exactTotalHours rows) := by
  obtain ⟨hA, m, hm⟩ := exactTotalHours_hundredths rows hdec
  have herr := totalHours_error rows
  rw [hA] at herr
  set F := (reportStats rows).totalHoursAllUsers
  set S := exactTotalHours rows
  have hS0 : 0 ≤ S := by
    have : (0 : ℚ) ≤ S * 100 := by rw [hm]; exact Nat.cast_nonneg m
    linarith
  have hpow := one_add_eps_pow_le (rows.length + 1) (by omega)
  have hn : ((rows.length + 1 : ℕ) : ℚ) ≤ 2 ^ 20 := by exact_mod_cast (show rows.length + 1 ≤ 2 ^ 20 by omega)
  have hg : (1 + 1 / 2 ^ 53 : ℚ) ^ (rows.length + 1) - 1 ≤ 1 / 2 ^ 32 := by
    have : 2 * ((rows.length + 1 : ℕ) : ℚ) / 2 ^ 53 ≤ 1 / 2 ^ 32 := by
      rw [div_le_div_iff₀ (by positivity) (by positivity)]
      norm_num at hn ⊢
      linarith
    linarith
  have hg0 : (0 : ℚ) ≤ (1 + 1 / 2 ^ 53 : ℚ) ^ (rows.length + 1) - 1 := by
    have := one_le_pow₀ (show (1 : ℚ) ≤ 1 + 1 / 2 ^ 53 by norm_num) (n := rows.length + 1)
    linarith
  have hclose : |F - S| ≤ 1 / 2 ^ 9 := by
    calc |F - S| ≤ ((1 + 1 / 2 ^ 53 : ℚ) ^ (rows.length + 1) - 1) * S := herr
      _ ≤ 1 / 2 ^ 32 * 2 ^ 23 := mul_le_mul hg hsum hS0 (by positivity)
      _ = 1 / 2 ^ 9 := by norm_num
  obtain ⟨c1, c2⟩ := abs_le.1 hclose
  have hF0 : 0 ≤ F := by
    rcases Nat.eq_zero_or_pos m with h0 | hpos
    · have hSz : S = 0 := by
        rw [h0] at hm
        simpa using hm
      rw [hSz, mul_zero] at herr
      have : |F - 0| = 0 := le_antisymm herr (abs_nonneg _)
      rw [sub_zero, abs_eq_zero] at this
      rw [this]
    · have : (1 : ℚ) ≤ m := by exact_mod_cast hpos
      norm_num at c1
      linarith
  unfold toFixed2
  rw [abs_of_nonneg hF0, abs_of_nonneg hS0]
  have hF21 : ¬ ((10 : ℚ) ^ 21 ≤ F) := by
    norm_num at c2 hsum ⊢
    linarith
  have hS21 : ¬ ((10 : ℚ) ^ 21 ≤ S) := by
    norm_num at hsum ⊢
    linarith
  rw [if_neg hF21, if_neg hS21, if_neg (not_lt.2 hF0), if_neg (not_lt.2 hS0)]
  have hfloorS : ⌊S * 100 + 1 / 2⌋ = (m : ℤ) := by
    rw [Int.floor_eq_iff, hm]
    push_cast
    constructor <;> norm_num
  have hfloorF : ⌊F * 100 + 1 / 2⌋ = (m : ℤ) := by
    rw [Int.floor_eq_iff]
    push_cast
    rw [← hm]
    norm_num at c1 c2 ⊢
    constructor <;> linarith
  rw [hfloorS, hfloorF]

theorem reduceMostActive_append (first : ReportRow) (rest : List ReportRow) (x : ReportRow) :
    reduceMostActive first (rest ++ [x]) =
      if hoursOf (reduceMostActive first rest) < hoursOf x then x
      else reduceMostActive first rest := by
  unfold reduceMostActive hoursOf
  rw [List.foldl_append]
  rfl

theorem reduceMostActive_split (first : ReportRow) (rest : List ReportRow) :
    ∃ pre post, first :: rest = pre ++ reduceMostActive first rest :: post ∧
      (∀ r ∈ pre, hoursOf r < hoursOf (reduceMostActive first rest)) ∧
      (∀ r ∈ post, hoursOf r ≤ hoursOf (reduceMostActive first rest)) := by
  induction rest using List.reverseRecOn with
  | nil =>
    refine ⟨[], [], rfl, ?_, ?_⟩ <;> simp
  | append_singleton rest x ih =>
    obtain ⟨pre, post, hsplit, hpre, hpost⟩ := ih
    rw [reduceMostActive_append]
    by_cases hlt : hoursOf (reduceMostActive first rest) < hoursOf x
    · rw [if_pos hlt]
      refine ⟨first :: rest, [], by simp, ?_, by simp⟩
      intro r hr
      rw [hsplit] at hr
      rcases List.mem_append.1 hr with h | h
      · exact lt_trans (hpre r h) hlt
      · rcases List.mem_cons.1 h with h | h
        · rw [h]
          exact hlt
        · exact lt_of_le_of_lt (hpost r h) hlt
    · rw [if_neg hlt]
      refine ⟨pre, post ++ [x], ?_, hpre, ?_⟩
      · rw [← List.cons_append, hsplit]
        simp
      · intro r hr
        rcases List.mem_append.1 hr with h | h
        · exact hpost r h
        · rw [List.mem_singleton.1 h]
          exact not_lt.1 hlt

theorem referenceMostActive_cons (first : ReportRow) (rest : List ReportRow) :
    referenceMostActive (first :: rest) = some (reduceMostActive first rest) := by
  obtain ⟨pre, post, hsplit, hpre, hpost⟩ := reduceMostActive_split first rest
  unfold referenceMostActive
  have hmem : reduceMostActive first rest ∈ first :: rest := by
    rw [hsplit]
    simp
  have hmax : (first :: rest).all
      (fun q => decide (hoursOf q ≤ hoursOf (reduceMostActive first rest))) = true := by
    rw [List.all_eq_true]
    intro q hq
    rw [hsplit] at hq
    rcases List.mem_append.1 hq with h | h
    · simpa using (hpre q h).le
    · rcases List.mem_cons.1 h with h | h
      · simp [h]
      · simpa using hpost q h
  have hnot : ∀ r ∈ pre, ¬ ((first :: rest).all
      (fun q => decide (hoursOf q ≤ hoursOf r)) = true) := by
    intro r hr hall
    rw [List.all_eq_true] at hall
    have := hall _ hmem
    simp only [decide_eq_true_eq] at this
    exact absurd (hpre r hr) (not_lt.2 this)
  generalize hP : (fun r => (first :: rest).all (fun q => decide (hoursOf q ≤ hoursOf r))) = P
    at hmax hnot ⊢
  have hmax2 : P (reduceMostActive first rest) = true := by
    rw [← hP]
    exact hmax
  have hnot2 : ∀ r ∈ pre, ¬ (P r = true) := by
    intro r hr
    rw [← hP]
    exact hnot r hr
  rw [hsplit, List.find?_append]
  have hnone : pre.find? P = none := by
    rw [List.find?_eq_none]
    exact hnot2
  rw [hnone]
  simp [List.find?_cons, hmax2]

/-- C7, as amended: the statistics that `generateAttendanceReport` computes from the rows of
the report query are: the number of rows; a total that is the rows' hours added up in double
arithmetic, within `((1 + 2 ^ (-53)) ^ (n + 1) - 1) * Σ |hours|` of their exact sum and, for
fewer than `2 ^ 20` rows of non-negative hours with at most two decimals and an exact sum of at
most `2 ^ 23`, rendered by `toFixed(2)` as the exact sum; an average that is 0 when there is no
row and otherwise within `((1 + 2 ^ (-53)) ^ (n + 2) - 1) * Σ |hours| / n` of the exact sum
divided by the number of rows; and the first row in list order whose hours are the maximum
over all rows (none when there is no row). -/
theorem reportStats_reference (rows : List ReportRow) :
    (reportStats rows).totalUsers = rows.length ∧
    |(reportStats rows).totalHoursAllUsers - exactTotalHours rows| ≤
      ((1 + 1 / 2 ^ 53) ^ (rows.length + 1) - 1) * absTotalHours rows ∧
    ((∀ r ∈ rows, 0 ≤ r.total_hours_worked.unscaled ∧ r.total_hours_worked.scale ≤ 2) →
      rows.length < 2 ^ 20 → exactTotalHours rows ≤ 2 ^ 23 →
        toFixed2 (reportStats rows).totalHoursAllUsers = toFixed2 (exactTotalHours rows)) ∧
    (rows = [] → (reportStats rows).averageHoursPerUser = 0) ∧
    (rows ≠ [] →
      |(reportStats rows).averageHoursPerUser - exactTotalHours rows / (rows.length : ℚ)| ≤
        ((1 + 1 / 2 ^ 53) ^ (rows.length + 2) - 1) * absTotalHours rows / (rows.length : ℚ)) ∧
    (reportStats rows).mostActiveUser = referenceMostActive rows := by
  refine ⟨?_, totalHours_error rows, toFixed2_totalHours rows, ?_, averageHours_error rows, ?_⟩
  · unfold reportStats
    cases rows <;> rfl
  · intro h
    rw [h]
    rfl
  · cases rows with
    | nil => rfl
    | cons first rest =>
      rw [referenceMostActive_cons]
      rfl

/-- C7, on an example: the two rows of 0.10 and 0.20 hours; their total is rendered as the
exact sum 0.30. -/
theorem reportStats_reference_witness :
    (∀ r ∈ rowsTenthAndFifth,
      0 ≤ r.total_hours_worked.unscaled ∧ r.total_hours_worked.scale ≤ 2) ∧
    rowsTenthAndFifth.length < 2 ^ 20 ∧ exactTotalHours rowsTenthAndFifth ≤ 2 ^ 23 ∧
    rowsTenthAndFifth ≠ [] ∧
    toFixed2 (reportStats rowsTenthAndFifth).totalHoursAllUsers =
      toFixed2 (exactTotalHours rowsTenthAndFifth) ∧
    toFixed2 (exactTotalHours rowsTenthAndFifth) = some "0.30" ∧
    |(reportStats rowsTenthAndFifth).averageHoursPerUser -
        exactTotalHours rowsTenthAndFifth / (rowsTenthAndFifth.length : ℚ)| ≤
      ((1 + 1 / 2 ^ 53) ^ (rowsTenthAndFifth.length + 2) - 1) *
        absTotalHours rowsTenthAndFifth / (rowsTenthAndFifth.length : ℚ) :=
  ⟨by decide, by decide, by decide!, by decide,
    (reportStats_reference rowsTenthAndFifth).2.2.1 (by decide) (by decide) (by decide!),
    by decide!,
    (reportStats_reference rowsTenthAndFifth).2.2.2.2.1 (by decide)⟩

/-- C7, as stated, fails: for the rows of 0.10 and 0.20 hours the total is the double
0.30000000000000004, which is neither their sum 3/10 nor the double nearest to it; and for the
rows of 0.03 and 0.00 hours the average is rendered as `0.01`, while the sum 0.03 divided by 2
is 0.015, which rounds to `0.02`. -/
theorem totalHours_not_exact_sum :
    (reportStats rowsTenthAndFifth).totalHoursAllUsers = 1351079888211149 / 4503599627370496 ∧
    exactTotalHours rowsTenthAndFifth = 3 / 10 ∧
    (reportStats rowsTenthAndFifth).totalHoursAllUsers ≠ exactTotalHours rowsTenthAndFifth ∧
    (reportStats rowsTenthAndFifth).totalHoursAllUsers ≠
      toDouble (exactTotalHours rowsTenthAndFifth) ∧
    exactTotalHours rowsThreeHundredths / (rowsThreeHundredths.length : ℚ) = 3 / 200 ∧
    toFixed2 (reportStats rowsThreeHundredths).averageHoursPerUser = some "0.01" ∧
    toFixed2 (exactTotalHours rowsThreeHundredths / (rowsThreeHundredths.length : ℚ)) =
      some "0.02" := by
  decide!

/-! ### Two decimal places -/

theorem digitChar_isDigit (d : Nat) : (digitChar d).isDigit = true := by
  unfold digitChar
  have h := Nat.mod_lt d (by norm_num : 10 > 0)
  generalize d % 10 = k at h
  interval_cases k <;> decide

theorem decDigits_isDigit (fuel : Nat) : ∀ n : Nat, ∀ c ∈ decDigits fuel n, c.isDigit = true := by
  induction fuel with
  | zero =>
    intro n c hc
    simp [decDigits] at hc
  | succ f ih =>
    intro n c hc
    unfold decDigits at hc
    split_ifs at hc
    · rw [List.mem_singleton.1 hc]
      exact digitChar_isDigit n
    · rcases List.mem_append.1 hc with h | h
      · exact ih _ c h
      · rw [List.mem_singleton.1 h]
        exact digitChar_isDigit n

theorem natDigits_ne_nil (n : Nat) : natDigits n ≠ [] := by
  unfold natDigits decDigits
  split_ifs <;> simp

theorem length_natDigits_le_two (n : Nat) (hn : n < 100) :
    (natDigits n).length = 1 ∨ (natDigits n).length = 2 := by
  unfold natDigits decDigits
  split_ifs with h
  · left
    rfl
  · right
    obtain ⟨m, hm⟩ : ∃ m, n = m + 1 := ⟨n - 1, by omega⟩
    subst hm
    unfold decDigits
    rw [if_pos (by omega)]
    rfl

theorem padDigits_two (n : Nat) (hn : n < 100) :
    ∃ a b : Char, padDigits 2 n = [a, b] ∧ a.isDigit = true ∧ b.isDigit = true := by
  have hall : ∀ c ∈ padDigits 2 n, c.isDigit = true := by
    intro c hc
    unfold padDigits at hc
    rcases List.mem_append.1 hc with h | h
    · rw [(List.mem_replicate.1 h).2]
      decide
    · exact decDigits_isDigit _ _ c h
  have hlen : (padDigits 2 n).length = 2 := by
    unfold padDigits
    rw [List.length_append, List.length_replicate]
    rcases length_natDigits_le_two n hn with h | h <;> rw [h]
  match hp : padDigits 2 n, hlen with
  | [a, b], _ =>
    rw [hp] at hall
    exact ⟨a, b, rfl, hall a (by simp), hall b (by simp)⟩

theorem isTwoDecimalText_mk (sign ds : List Char) (a b : Char)
    (hsign : sign = [] ∨ sign = ['-']) (hds : ds ≠ [])
    (hall : ∀ c ∈ ds, c.isDigit = true) (ha : a.isDigit = true) (hb : b.isDigit = true) :
    isTwoDecimalText (String.mk (sign ++ (ds ++ '.' :: [a, b]))) = true := by
  unfold isTwoDecimalText
  have hrev : (sign ++ (ds ++ '.' :: [a, b])).reverse = b :: a :: '.' :: (sign ++ ds).reverse := by
    simp
  simp only [hrev, List.reverse_reverse, ha, hb, Bool.and_self, Bool.true_and]
  obtain ⟨c, cs, hcs⟩ := List.exists_cons_of_ne_nil hds
  subst hcs
  have hc := hall c (List.mem_cons_self _ _)
  have hallb : (c :: cs).all Char.isDigit = true := by
    rw [List.all_eq_true]
    exact hall
  rcases hsign with h | h
  · subst h
    simp only [List.nil_append]
    split
    · next heq => simp at heq
    · next ds2 heq =>
      rw [List.cons.injEq] at heq
      rw [heq.1] at hc
      exact absurd hc (by decide)
    · exact hallb
  · subst h
    simp only [List.singleton_append]
    rw [hallb]
    rfl

/-- The text `x.toFixed(2)` of a double below `10 ^ 21` in magnitude has exactly two decimal
places. -/
theorem toFixed2_twoDecimal (x : ℚ) (hx : |x| < 10 ^ 21) :
    ∃ t, toFixed2 x = some t ∧ isTwoDecimalText t = true := by
  unfold toFixed2
  rw [if_neg (not_le.2 hx)]
  refine ⟨_, rfl, ?_⟩
  unfold fixedText
  rw [if_neg (show ¬ (2 : ℕ) = 0 by norm_num)]
  obtain ⟨a, b, hp, ha, hb⟩ := padDigits_two (⌊|x| * 100 + 1 / 2⌋.toNat % 10 ^ 2)
    (Nat.mod_lt _ (by norm_num))
  rw [hp]
  apply isTwoDecimalText_mk _ _ a b _ (natDigits_ne_nil _) (decDigits_isDigit _ _) ha hb
  by_cases hneg : x < 0
  · right
    rw [if_pos hneg]
  · left
    rw [if_neg hneg]

/-- Every hour figure of a rendered report row, and both rendered totals, have exactly two
decimal places when the numbers are below `10 ^ 21` in magnitude. -/
theorem renderRow_twoDecimal (row : ReportRow)
    (h1 : |parseFloat row.total_hours_worked| < 10 ^ 21)
    (h2 : |parseFloat row.average_hours_per_day| < 10 ^ 21) :
    (∃ t, (renderRow row).total_hours_worked = some t ∧ isTwoDecimalText t = true) ∧
    (∃ t, (renderRow row).average_hours_per_day = some t ∧ isTwoDecimalText t = true) :=
  ⟨toFixed2_twoDecimal _ h1, toFixed2_twoDecimal _ h2⟩

/-! ### Report rows -/

theorem length_reportQuery (pgAvg : List PgNumeric → PgNumeric) (s : Store)
    (startDate endDate : Int) (userId : Option Nat) :
    (reportQuery pgAvg s startDate endDate userId).length = s.users.length := by
  unfold reportQuery
  rw [List.length_insertionSort, List.length_map]

/-- C8, evaluated: with a target user 1 the report of an administrator still has a summary row
for user 2 (with zero days and hours) and `totalUsers` is 2. -/
theorem report_target_user_not_filtered :
    generateAttendanceReport avgOfOne storeTwoUsers adminCaller (some 0) (some 10) (some 1) =
      ReportResponse.ok
        [{ id := 1, name := "Ann", email := "ann@example.org", role := "user",
           total_days_worked := 1, total_hours_worked := some "8.50",
           average_hours_per_day := some "8.50", incomplete_days := 1 },
         { id := 2, name := "Bob", email := "bob@example.org", role := "user",
           total_days_worked := 0, total_hours_worked := some "0.00",
           average_hours_per_day := some "0.00", incomplete_days := 0 }]
        { totalUsers := 2, totalHoursAllUsers := some "8.50",
          averageHoursPerUser := some "4.25",
          mostActiveUser := some
            { id := 1, name := "Ann", email := "ann@example.org", role := "user",
              total_days_worked := 1, total_hours_worked := "8.50",
              average_hours_per_day := "8.50", incomplete_days := 1 },
          dateRange := (0, 10) } := by
  decide!

/-- C9, evaluated: in a report over a range without sessions the two hour figures carried by
`statistics.mostActiveUser` are the text `0` of the store, not a text with two decimal places,
while the six other figures are `0.00`. -/
theorem report_mostActive_not_rendered :
    hourFigures (generateAttendanceReport avgOfOne storeTwoUsers adminCaller (some 100)
      (some 200) none) =
      [some "0.00", some "0.00", some "0.00", some "0.00", some "0.00", some "0.00",
       some "0", some "0"] ∧
    isTwoDecimalText "0.00" = true ∧ isTwoDecimalText "0" = false := by
  decide!

/-! ### Administrative update -/

/-- C10, as stated, fails: a patch that specifies empty notes leaves the notes `desk` of the
record in place. -/
theorem update_empty_notes_kept :
    (updateAttendanceRecord storeTwoUsers adminCaller 2
      { clock_in_time := none, clock_out_time := none, notes := some "", status := none }
      400000000).2.attendance.map (fun a => (a.id, a.notes)) =
      [(1, none), (2, some "desk")] := by
  decide!

theorem updateAttendanceRecord_notFound (s : Store) (caller : Caller)
    (hadmin : caller.role = some "admin") (id : Nat) (patch : AttendancePatch) (dbNow : Int)
    (h : ∀ a ∈ s.attendance, a.id ≠ id) :
    updateAttendanceRecord s caller id patch dbNow = (UpdateResponse.notFound, s) := by
  unfold updateAttendanceRecord
  rw [if_neg (by simp [hadmin])]
  have hnil : s.attendance.filter (fun a => a.id == id) = [] := by
    apply List.eq_nil_iff_forall_not_mem.2
    intro a ha
    rw [List.mem_filter] at ha
    exact h a ha.1 (by simpa using ha.2)
  rw [hnil]

theorem updateAttendanceRecord_found (s : Store) (caller : Caller)
    (hadmin : caller.role = some "admin") (id : Nat) (patch : AttendancePatch) (dbNow : Int)
    (h : ∃ a ∈ s.attendance, a.id = id) :
    updateAttendanceRecord s caller id patch dbNow =
      (UpdateResponse.updated
        (((s.attendance.map (fun a => if a.id = id then applyPatch patch dbNow a else a)).filter
          (fun a => a.id == id)).head?),
        { s with attendance :=
            s.attendance.map (fun a => if a.id = id then applyPatch patch dbNow a else a) }) := by
  unfold updateAttendanceRecord
  rw [if_neg (by simp [hadmin])]
  obtain ⟨a, ha, hid⟩ := h
  have hmem : a ∈ s.attendance.filter (fun a => a.id == id) := by
    rw [List.mem_filter]
    exact ⟨ha, by simpa using hid⟩
  cases hf : s.attendance.filter (fun a => a.id == id) with
  | nil =>
    rw [hf] at hmem
    exact absurd hmem (List.not_mem_nil a)
  | cons b bs => rfl

/-- C10, as amended: for an administrator, an update of an identifier that no record has fails
with the not-found result and changes nothing; on an existing identifier each of
`clock_in_time`, `clock_out_time`, `notes` and `status` for which the patch gives a non-empty
value takes that value, each that the patch leaves out (or gives as an empty text) keeps its
prior value, and the identifier, user reference, work date and total hours of that record and
every other record are unchanged. -/
theorem updateAttendanceRecord_effect (s : Store) (caller : Caller)
    (hadmin : caller.role = some "admin") (id : Nat) (patch : AttendancePatch) (dbNow : Int) :
    ((∀ a ∈ s.attendance, a.id ≠ id) →
      updateAttendanceRecord s caller id patch dbNow = (UpdateResponse.notFound, s)) ∧
    ((∃ a ∈ s.attendance, a.id = id) →
      (∃ row, (updateAttendanceRecord s caller id patch dbNow).1 =
          UpdateResponse.updated (some row) ∧
        row ∈ (updateAttendanceRecord s caller id patch dbNow).2.attendance ∧ row.id = id) ∧
      (updateAttendanceRecord s caller id patch dbNow).2.users = s.users ∧
      (updateAttendanceRecord s caller id patch dbNow).2.nextId = s.nextId ∧
      List.Forall₂
        (fun a b =>
          (a.id ≠ id → b = a) ∧
          (a.id = id →
            b.id = a.id ∧ b.user_id = a.user_id ∧ b.work_date = a.work_date ∧
            b.total_hours = a.total_hours ∧
            (∀ t, patch.clock_in_time = some t → b.clock_in_time = t) ∧
            (patch.clock_in_time = none → b.clock_in_time = a.clock_in_time) ∧
            (∀ t, patch.clock_out_time = some t → b.clock_out_time = some t) ∧
            (patch.clock_out_time = none → b.clock_out_time = a.clock_out_time) ∧
            (∀ v, patch.notes = some v → v ≠ "" → b.notes = some v) ∧
            (patch.notes = none ∨ patch.notes = some "" → b.notes = a.notes) ∧
            (∀ v, patch.status = some v → v ≠ "" → b.status = v) ∧
            (patch.status = none ∨ patch.status = some "" → b.status = a.status)))
        s.attendance (updateAttendanceRecord s caller id patch dbNow).2.attendance) := by
  refine ⟨updateAttendanceRecord_notFound s caller hadmin id patch dbNow, ?_⟩
  intro h
  rw [updateAttendanceRecord_found s caller hadmin id patch dbNow h]
  refine ⟨?_, rfl, rfl, ?_⟩
  · obtain ⟨a, ha, hid⟩ := h
    have hmem : applyPatch patch dbNow a ∈
        (s.attendance.map (fun a => if a.id = id then applyPatch patch dbNow a else a)).filter
          (fun a => a.id == id) := by
      rw [List.mem_filter]
      refine ⟨List.mem_map.2 ⟨a, ha, by rw [if_pos hid]⟩, ?_⟩
      simpa [applyPatch] using hid
    cases hf : (s.attendance.map
        (fun a => if a.id = id then applyPatch patch dbNow a else a)).filter
          (fun a => a.id == id) with
    | nil =>
      rw [hf] at hmem
      exact absurd hmem (List.not_mem_nil _)
    | cons b bs =>
      have hb : b ∈ (s.attendance.map
          (fun a => if a.id = id then applyPatch patch dbNow a else a)).filter
            (fun a => a.id == id) := by
        rw [hf]
        exact List.mem_cons_self _ _
      rw [List.mem_filter] at hb
      exact ⟨b, rfl, hb.1, by simpa using hb.2⟩
  · simp only
    rw [List.forall₂_map_right_iff, List.forall₂_same]
    intro a _
    refine ⟨fun hne => by rw [if_neg hne], fun heq => ?_⟩
    rw [if_pos heq]
    refine ⟨rfl, rfl, rfl, rfl, ?_, ?_, ?_, ?_, ?_, ?_, ?_, ?_⟩
    · intro t ht
      simp [applyPatch, ht]
    · intro ht
      simp [applyPatch, ht]
    · intro t ht
      simp [applyPatch, ht, coalesce]
    · intro ht
      simp [applyPatch, ht, coalesce]
    · intro v hv hne
      simp [applyPatch, hv, orNull, hne, coalesce]
    · intro hv
      rcases hv with hv | hv <;> simp [applyPatch, hv, orNull, coalesce]
    · intro v hv hne
      simp [applyPatch, hv, orNull, hne]
    · intro hv
      rcases hv with hv | hv <;> simp [applyPatch, hv, orNull]

/-- C10, on an example: an administrator sets the clock-out time and the status of record 2. -/
theorem updateAttendanceRecord_effect_witness :
    adminCaller.role = some "admin" ∧
    (updateAttendanceRecord storeTwoUsers adminCaller 2
      { clock_in_time := none, clock_out_time := some 330000000, notes := none,
        status := some "closed" } 400000000).2.attendance.map
        (fun a => (a.id, a.clock_out_time, a.status, a.notes)) =
      [(1, some 322200000, "active", none), (2, some 330000000, "closed", some "desk")] ∧
    (updateAttendanceRecord storeTwoUsers adminCaller 7
      { clock_in_time := none, clock_out_time := some 330000000, notes := none,
        status := some "closed" } 400000000) = (UpdateResponse.notFound, storeTwoUsers) :=
  ⟨rfl, by decide!,
    (updateAttendanceRecord_effect storeTwoUsers adminCaller rfl 7
      { clock_in_time := none, clock_out_time := some 330000000, notes := none,
        status := some "closed" } 400000000).1 (by decide)⟩

/-! ### Clock-out not before clock-in -/

theorem clockIn_clockOutAfterClockIn (s : Store) (h : ClockOutAfterClockIn s) (userId : Nat)
    (notes : Option String) (now dbNow : Int) :
    ClockOutAfterClockIn (clockIn s userId notes now dbNow).2 := by
  cases hsel : selectByStatus s userId (workDateOf now) "active" with
  | cons existing rest =>
    rw [clockIn_of_active s userId notes now dbNow existing rest hsel]
    exact h
  | nil =>
    rw [clockIn_of_none s userId notes now dbNow hsel]
    intro a ha t ht
    simp only [insertAttendance, List.mem_append, List.mem_singleton] at ha
    rcases ha with ha | ha
    · exact h a ha t ht
    · rw [ha] at ht
      simp at ht

theorem clockOut_clockOutAfterClockIn (s : Store) (h : ClockOutAfterClockIn s) (userId : Nat)
    (notes : Option String) (now clockOutTime dbNow : Int)
    (hclock : ∀ (record : Attendance) (rest : List Attendance),
      selectByStatus s userId (workDateOf now) "active" = record :: rest →
        ∀ a ∈ s.attendance, a.id = record.id → a.clock_in_time ≤ clockOutTime) :
    ClockOutAfterClockIn (clockOut s userId notes now clockOutTime dbNow).2 := by
  cases hsel : selectByStatus s userId (workDateOf now) "active" with
  | nil =>
    rw [clockOut_of_none s userId notes now clockOutTime dbNow hsel]
    exact h
  | cons record rest =>
    rw [clockOut_of_active s userId notes now clockOutTime dbNow record rest hsel]
    intro b hb t ht
    simp only [updateClockOut, List.mem_map] at hb
    obtain ⟨a, ha, hab⟩ := hb
    by_cases hid : a.id = record.id
    · rw [if_pos hid] at hab
      rw [← hab] at ht ⊢
      simp only [Option.some.injEq] at ht
      rw [← ht]
      exact hclock record rest hsel a ha hid
    · rw [if_neg hid] at hab
      rw [← hab] at ht ⊢
      exact h a ha t ht

theorem applyPatch_clock_in (patch : AttendancePatch) (dbNow : Int) (a : Attendance) :
    patch.clock_in_time = some (applyPatch patch dbNow a).clock_in_time ∨
      (patch.clock_in_time = none ∧ a.clock_in_time = (applyPatch patch dbNow a).clock_in_time) := by
  cases hp : patch.clock_in_time with
  | none => right; simp [applyPatch, hp]
  | some c => left; simp [applyPatch, hp]

theorem applyPatch_clock_out (patch : AttendancePatch) (dbNow : Int) (a : Attendance) (t : Int)
    (ht : (applyPatch patch dbNow a).clock_out_time = some t) :
    patch.clock_out_time = some t ∨ (patch.clock_out_time = none ∧ a.clock_out_time = some t) := by
  cases hp : patch.clock_out_time with
  | none =>
    right
    simpa [applyPatch, hp, coalesce] using ht
  | some c =>
    left
    simpa [applyPatch, hp, coalesce] using ht

theorem update_clockOutAfterClockIn (s : Store) (h : ClockOutAfterClockIn s) (caller : Caller)
    (id : Nat) (patch : AttendancePatch) (dbNow : Int)
    (hpatch : caller.role ≠ some "admin" ∨
      ∀ a ∈ s.attendance, a.id = id → ∀ tin tout : Int,
        (patch.clock_in_time = some tin ∨
          (patch.clock_in_time = none ∧ a.clock_in_time = tin)) →
        (patch.clock_out_time = some tout ∨
          (patch.clock_out_time = none ∧ a.clock_out_time = some tout)) →
        tin ≤ tout) :
    ClockOutAfterClockIn (updateAttendanceRecord s caller id patch dbNow).2 := by
  unfold updateAttendanceRecord
  split_ifs with hrole
  · exact h
  · rcases hpatch with hp | hp
    · exact absurd hp hrole
    · split
      · exact h
      · intro b hb t ht
        simp only [List.mem_map] at hb
        obtain ⟨a, ha, hab⟩ := hb
        by_cases hid : a.id = id
        · rw [if_pos hid] at hab
          rw [← hab] at ht ⊢
          exact hp a ha hid _ t (applyPatch_clock_in patch dbNow a)
            (applyPatch_clock_out patch dbNow a t ht)
        · rw [if_neg hid] at hab
          rw [← hab] at ht ⊢
          exact h a ha t ht

theorem update_clockOutAfterClockIn_only (s : Store) (caller : Caller)
    (hadmin : caller.role = some "admin") (id : Nat) (patch : AttendancePatch) (dbNow : Int)
    (hafter : ClockOutAfterClockIn (updateAttendanceRecord s caller id patch dbNow).2) :
    ∀ a ∈ s.attendance, a.id = id → ∀ tin tout : Int,
      (patch.clock_in_time = some tin ∨
        (patch.clock_in_time = none ∧ a.clock_in_time = tin)) →
      (patch.clock_out_time = some tout ∨
        (patch.clock_out_time = none ∧ a.clock_out_time = some tout)) →
      tin ≤ tout := by
  intro a ha hid tin tout hin hout
  rw [updateAttendanceRecord_found s caller hadmin id patch dbNow ⟨a, ha, hid⟩] at hafter
  have hmem : applyPatch patch dbNow a ∈
      s.attendance.map (fun a => if a.id = id then applyPatch patch dbNow a else a) :=
    List.mem_map.2 ⟨a, ha, by rw [if_pos hid]⟩
  have hcin : (applyPatch patch dbNow a).clock_in_time = tin := by
    rcases hin with h1 | ⟨h1, h2⟩
    · simp [applyPatch, h1]
    · simp [applyPatch, h1, h2]
  have hcout : (applyPatch patch dbNow a).clock_out_time = some tout := by
    rcases hout with h1 | ⟨h1, h2⟩
    · simp [applyPatch, h1, coalesce]
    · simp [applyPatch, h1, h2, coalesce]
  have := hafter _ hmem tout hcout
  rw [hcin] at this
  exact this

theorem storeTwoUsers_clockOutAfterClockIn : ClockOutAfterClockIn storeTwoUsers := by
  intro a ha t ht
  simp only [storeTwoUsers, List.mem_cons, List.mem_singleton, List.not_mem_nil, or_false] at ha
  rcases ha with ha | ha <;> rw [ha] at ht ⊢ <;> simp only [Option.some.injEq] at ht <;>
    rw [← ht] <;> decide

/-- C11, as amended: on a store where no clock-out is before its clock-in, the same holds after
`clockIn` for every input; after `clockOut` whenever the clock-out instant is not before the
clock-in of the records it closes (a clock that never goes backwards); and after
`updateAttendanceRecord` by an administrator exactly when, on every record of the updated
identifier, the resulting clock-out (the patch's, else the stored one), if present, is not
before the resulting clock-in (the patch's, else the stored one), and always when the caller
is no administrator. -/
theorem clockOutAfterClockIn_preserved (s : Store) (h : ClockOutAfterClockIn s) :
    (∀ (userId : Nat) (notes : Option String) (now dbNow : Int),
      ClockOutAfterClockIn (clockIn s userId notes now dbNow).2) ∧
    (∀ (userId : Nat) (notes : Option String) (now clockOutTime dbNow : Int),
      (∀ (record : Attendance) (rest : List Attendance),
        selectByStatus s userId (workDateOf now) "active" = record :: rest →
          ∀ a ∈ s.attendance, a.id = record.id → a.clock_in_time ≤ clockOutTime) →
        ClockOutAfterClockIn (clockOut s userId notes now clockOutTime dbNow).2) ∧
    (∀ (caller : Caller) (id : Nat) (patch : AttendancePatch) (dbNow : Int),
      caller.role ≠ some "admin" →
        ClockOutAfterClockIn (updateAttendanceRecord s caller id patch dbNow).2) ∧
    (∀ (caller : Caller) (id : Nat) (patch : AttendancePatch) (dbNow : Int),
      caller.role = some "admin" →
        (ClockOutAfterClockIn (updateAttendanceRecord s caller id patch dbNow).2 ↔
          ∀ a ∈ s.attendance, a.id = id → ∀ tin tout : Int,
            (patch.clock_in_time = some tin ∨
              (patch.clock_in_time = none ∧ a.clock_in_time = tin)) →
            (patch.clock_out_time = some tout ∨
              (patch.clock_out_time = none ∧ a.clock_out_time = some tout)) →
            tin ≤ tout)) :=
  ⟨clockIn_clockOutAfterClockIn s h, clockOut_clockOutAfterClockIn s h,
    fun caller id patch dbNow hrole =>
      update_clockOutAfterClockIn s h caller id patch dbNow (Or.inl hrole),
    fun caller id patch dbNow hadmin =>
      ⟨update_clockOutAfterClockIn_only s caller hadmin id patch dbNow,
        fun hp => update_clockOutAfterClockIn s h caller id patch dbNow (Or.inr hp)⟩⟩

/-- C11, on an example: the store of two closed sessions; the administrator's patch moves the
clock-out of record 2 to a later instant. -/
theorem clockOutAfterClockIn_preserved_witness :
    ClockOutAfterClockIn storeTwoUsers ∧
    ClockOutAfterClockIn (clockIn storeTwoUsers 1 none 400000000 400000000).2 ∧
    ClockOutAfterClockIn (clockOut storeTwoUsers 1 none 300000000 330000000 330000000).2 ∧
    ClockOutAfterClockIn (updateAttendanceRecord storeTwoUsers adminCaller 2
      { clock_in_time := none, clock_out_time := some 330000000, notes := none,
        status := some "closed" } 400000000).2 := by
  have hin : ∀ a ∈ storeTwoUsers.attendance, a.clock_in_time ≤ 330000000 := by decide
  refine ⟨storeTwoUsers_clockOutAfterClockIn,
    (clockOutAfterClockIn_preserved storeTwoUsers storeTwoUsers_clockOutAfterClockIn).1
      1 none 400000000 400000000,
    (clockOutAfterClockIn_preserved storeTwoUsers storeTwoUsers_clockOutAfterClockIn).2.1
      1 none 300000000 330000000 330000000 (fun _ _ _ a ha _ => hin a ha),
    ((clockOutAfterClockIn_preserved storeTwoUsers storeTwoUsers_clockOutAfterClockIn).2.2.2
      adminCaller 2 _ 400000000 rfl).2 ?_⟩
  intro a ha _ tin tout h1 h2
  rcases h1 with h1 | ⟨_, h1⟩
  · exact absurd h1 (by simp)
  · rcases h2 with h2 | ⟨h2, _⟩
    · simp only [Option.some.injEq] at h2
      rw [← h1, ← h2]
      exact hin a ha
    · exact absurd h2 (by simp)

/-- C11, as stated, fails: an administrator sets the clock-out of record 1 to an instant before
its clock-in, and the store that had no clock-out before its clock-in now has one. -/
theorem update_breaks_clockOutAfterClockIn :
    ClockOutAfterClockIn storeTwoUsers ∧
    ¬ ClockOutAfterClockIn (updateAttendanceRecord storeTwoUsers adminCaller 1
      { clock_in_time := none, clock_out_time := some 291000000, notes := none,
        status := none } 400000000).2 := by
  refine ⟨storeTwoUsers_clockOutAfterClockIn, ?_⟩
  intro hall
  have hmem : ∃ a ∈ (updateAttendanceRecord storeTwoUsers adminCaller 1
      { clock_in_time := none, clock_out_time := some 291000000, notes := none,
        status := none } 400000000).2.attendance,
      a.clock_out_time = some 291000000 ∧ a.clock_in_time = 291600000 := by
    decide!
  obtain ⟨a, ha, hout, hin⟩ := hmem
  have := hall a ha 291000000 hout
  omega

/-! ### A clock-out leaves the session open -/

theorem updateClockOut_frame (s : Store) (t : Int) (notes : Option String) (id : Nat)
    (dbNow : Int) :
    List.Forall₂
      (fun a b =>
        b.id = a.id ∧ b.user_id = a.user_id ∧ b.work_date = a.work_date ∧
        b.clock_in_time = a.clock_in_time ∧ b.status = a.status ∧
        b.total_hours = a.total_hours ∧ (a.id ≠ id → b = a))
      s.attendance (updateClockOut s t notes id dbNow).attendance := by
  unfold updateClockOut
  simp only
  rw [List.forall₂_map_right_iff, List.forall₂_same]
  intro a _
  by_cases hid : a.id = id
  · rw [if_pos hid]
    exact ⟨rfl, rfl, rfl, rfl, rfl, rfl, fun hne => absurd hid hne⟩
  · rw [if_neg hid]
    exact ⟨rfl, rfl, rfl, rfl, rfl, rfl, fun _ => rfl⟩

theorem selectByStatus_clockIn_ne_nil (s : Store) (userId : Nat) (notes : Option String)
    (now dbNow : Int) :
    selectByStatus (clockIn s userId notes now dbNow).2 userId (workDateOf now) "active" ≠ [] := by
  cases hsel : selectByStatus s userId (workDateOf now) "active" with
  | cons existing rest =>
    rw [clockIn_of_active s userId notes now dbNow existing rest hsel, hsel]
    simp
  | nil =>
    rw [clockIn_of_none s userId notes now dbNow hsel]
    apply List.ne_nil_of_mem
      (a := (insertAttendance s userId (workDateOf now) (orNull notes) "active" dbNow).1)
    rw [mem_selectByStatus]
    simp [insertAttendance]

theorem selectByStatus_clockOut_ne_nil (s : Store) (userId : Nat) (notes : Option String)
    (now clockOutTime dbNow : Int) (workDate : Int)
    (h : selectByStatus s userId workDate "active" ≠ []) :
    selectByStatus (clockOut s userId notes now clockOutTime dbNow).2 userId workDate
      "active" ≠ [] := by
  have hlen : (selectByStatus (clockOut s userId notes now clockOutTime dbNow).2 userId workDate
      "active").length = (selectByStatus s userId workDate "active").length := by
    cases hsel : selectByStatus s userId (workDateOf now) "active" with
    | nil => rw [clockOut_of_none s userId notes now clockOutTime dbNow hsel]
    | cons record rest =>
      rw [clockOut_of_active s userId notes now clockOutTime dbNow record rest hsel]
      exact selectByStatus_updateClockOut s _ _ _ _ _ _ _
  intro hnil
  rw [hnil] at hlen
  exact h (List.length_eq_zero.1 hlen.symm)

/-- C12: a successful `clockOut` leaves the identifier, user reference, work date, clock-in
time, status and total hours of every record as they were and changes no record other than
the matched one (the records of the matched identifier), nor the users; and after `clockIn`
followed by `clockOut` on the same work date, the `clockOut` succeeds and a further `clockIn`
on that date fails with the already-clocked-in conflict and leaves the store as it was. -/
theorem clockOut_leaves_session_open :
    (∀ (s : Store) (userId : Nat) (notes : Option String) (now t dbNow : Int)
      (record : Attendance) (rest : List Attendance),
      selectByStatus s userId (workDateOf now) "active" = record :: rest →
        (∃ updated hours, (clockOut s userId notes now t dbNow).1 =
          ClockOutResponse.clockedOut updated hours) ∧
        record.status = "active" ∧ record.work_date = workDateOf now ∧
        (clockOut s userId notes now t dbNow).2.users = s.users ∧
        (clockOut s userId notes now t dbNow).2.nextId = s.nextId ∧
        List.Forall₂
          (fun a b =>
            b.id = a.id ∧ b.user_id = a.user_id ∧ b.work_date = a.work_date ∧
            b.clock_in_time = a.clock_in_time ∧ b.status = a.status ∧
            b.total_hours = a.total_hours ∧ (a.id ≠ record.id → b = a))
          s.attendance (clockOut s userId notes now t dbNow).2.attendance) ∧
    (∀ (s : Store) (userId : Nat) (notes1 notes2 notes3 : Option String)
      (now1 dbNow1 now2 t dbNow2 now3 dbNow3 : Int),
      workDateOf now2 = workDateOf now1 → workDateOf now3 = workDateOf now1 →
        (∃ updated hours,
          (clockOut (clockIn s userId notes1 now1 dbNow1).2 userId notes2 now2 t dbNow2).1 =
            ClockOutResponse.clockedOut updated hours) ∧
        ∃ existing,
          clockIn (clockOut (clockIn s userId notes1 now1 dbNow1).2 userId notes2 now2 t
              dbNow2).2 userId notes3 now3 dbNow3 =
            (ClockInResponse.alreadyClockedIn existing,
              (clockOut (clockIn s userId notes1 now1 dbNow1).2 userId notes2 now2 t
                dbNow2).2)) := by
  constructor
  · intro s userId notes now t dbNow record rest hsel
    have hrec : record ∈ selectByStatus s userId (workDateOf now) "active" := by
      rw [hsel]
      exact List.mem_cons_self _ _
    obtain ⟨_, _, hd, hs⟩ := (mem_selectByStatus s userId (workDateOf now) "active" record).1 hrec
    rw [clockOut_of_active s userId notes now t dbNow record rest hsel]
    exact ⟨⟨_, _, rfl⟩, hs, hd, rfl, rfl, updateClockOut_frame s t (orNull notes) record.id dbNow⟩
  · intro s userId notes1 notes2 notes3 now1 dbNow1 now2 t dbNow2 now3 dbNow3 h12 h13
    have h1 := selectByStatus_clockIn_ne_nil s userId notes1 now1 dbNow1
    constructor
    · cases hsel : selectByStatus (clockIn s userId notes1 now1 dbNow1).2 userId
          (workDateOf now2) "active" with
      | nil =>
        rw [h12] at hsel
        exact absurd hsel h1
      | cons record rest =>
        rw [clockOut_of_active _ userId notes2 now2 t dbNow2 record rest hsel]
        exact ⟨_, _, rfl⟩
    · have h2 := selectByStatus_clockOut_ne_nil (clockIn s userId notes1 now1 dbNow1).2 userId
        notes2 now2 t dbNow2 (workDateOf now1) h1
      cases hsel : selectByStatus (clockOut (clockIn s userId notes1 now1 dbNow1).2 userId notes2
          now2 t dbNow2).2 userId (workDateOf now3) "active" with
      | nil =>
        rw [h13] at hsel
        exact absurd hsel h2
      | cons existing rest =>
        exact ⟨existing, clockIn_of_active _ userId notes3 now3 dbNow3 existing rest hsel⟩

/-- C12, on an example: user 2 clocks in at 09:00:00 of day 0, clocks out at 17:30:00 and
clocks in again at 18:00:00. -/
theorem clockOut_leaves_session_open_witness :
    workDateOf 63000000 = workDateOf 32400000 ∧ workDateOf 64800000 = workDateOf 32400000 ∧
    (∃ updated hours,
      (clockOut (clockIn storeOneSession 2 none 32400000 32400000).2 2 none 63000000 63000000
        63000000).1 = ClockOutResponse.clockedOut updated hours) ∧
    ∃ existing,
      clockIn (clockOut (clockIn storeOneSession 2 none 32400000 32400000).2 2 none 63000000
          63000000 63000000).2 2 none 64800000 64800000 =
        (ClockInResponse.alreadyClockedIn existing,
          (clockOut (clockIn storeOneSession 2 none 32400000 32400000).2 2 none 63000000
            63000000 63000000).2) :=
  ⟨by decide, by decide,
    clockOut_leaves_session_open.2 storeOneSession 2 none none none 32400000 32400000 63000000
      63000000 63000000 64800000 64800000 (by decide) (by decide)⟩

end CMS
